import Mathlib

/-!
# kollector: the pod reconciliation engine (`watch/podwatch.go`)

A shallow embedding of the pod watch of `watch/podwatch.go`: the owner
resolution (`GetOwnerData`, `GetAncestorOfPod`), the workload registry
`pdm : map[int]*list.List` with its lookup (`IsPodSpecAlreadyExist`), update
(`UpdatePod`) and removal (`RemovePod`, `isMicroServiceNeedToBeRemoved`), and
the body of the event loop of `PodWatch` for one event.

Conventions of the embedding.

* Go strings are `String`, Go `int` is `Int`.
* A Go slice is the `List` of its elements; `s != nil` is read as "s is not
  empty" (the API server omits empty `ownerReferences`).
* `map[string]string` (labels) is an association list read with `List.lookup`.
* The registry `map[int]*list.List` is the list of its entries, in the order
  in which the `range` statement of the current event visits them.  Go leaves
  that order unspecified, so a statement about the registry is made for every
  order; statements about two consecutive events let the second event see an
  arbitrary permutation of the entries the first one left.
* A `*list.List` of the registry is either empty or a `MicroServiceData`
  followed by `PodDataForExistMicroService` values: these are the only shapes
  the two `PushBack` sites and the two `Remove` sites of the file produce.
* The cluster (`wh.RestAPIClient`, `wh.extensionsClient`) is a record of
  answers, `Gateway`, passed to every function that calls the API.
* A Go run-time panic is the `Except.error` outcome.
-/

namespace Kollector

/-! ## Kubernetes objects (the fields the watch reads) -/

/-- The `metav1.TypeMeta` of an object. -/
structure TypeMeta where
  Kind : String
  APIVersion : String
  deriving DecidableEq

/-- One `metav1.OwnerReference`. -/
structure OwnerReference where
  APIVersion : String
  Kind : String
  Name : String
  deriving DecidableEq

/-- The `metav1.ObjectMeta` of an object. -/
structure ObjectMeta where
  Name : String
  GenerateName : String
  Namespace : String
  ResourceVersion : String
  Labels : List (String × String)
  OwnerReferences : List OwnerReference
  deriving DecidableEq

/-- Modelled from the spec: `core.Container` of k8s.io/api is not under src/;
the spec names image, command and resource limits as the fields in which two
container specifications can differ. -/
structure Container where
  Name : String
  Image : String
  Command : List String
  Args : List String
  Limits : List (String × String)
  deriving DecidableEq

/-- The `core.PodSpec` of a pod. -/
structure PodSpec where
  Containers : List Container
  NodeName : String
  deriving DecidableEq

/-- The `core.PodStatus` of a pod. -/
structure PodStatus where
  Phase : String
  PodIP : String
  deriving DecidableEq

/-- A `core.Pod`. -/
structure Pod where
  toTypeMeta : TypeMeta
  ObjectMeta : ObjectMeta
  Spec : PodSpec
  Status : PodStatus
  deriving DecidableEq

/-- A `metav1.LabelSelector`, restricted to its `matchLabels`. -/
structure LabelSelector where
  MatchLabels : List (String × String)
  deriving DecidableEq

/-- A controller object (ReplicaSet, Deployment, DaemonSet, StatefulSet, Job,
CronJob): type meta, object meta and the `Spec.Selector` pointer. -/
structure Controller where
  toTypeMeta : TypeMeta
  ObjectMeta : ObjectMeta
  Selector : Option LabelSelector
  deriving DecidableEq

/-- One `CustomResourceDefinition` of the extensions client: its own
`TypeMeta.Kind` and `Status.AcceptedNames.Kind`. -/
structure CRD where
  Kind : String
  AcceptedKind : String
  deriving DecidableEq

/-! ## Label selectors (k8s.io/apimachinery/pkg/labels) -/

/-- A `labels.Selector` as `metav1.LabelSelectorAsSelector` builds it:
`labels.Nothing()` or a list of equality requirements. -/
inductive Selector where
  | nothing
  | requirements (reqs : List (String × String))
  deriving DecidableEq

/-- Modelled from the spec: `metav1.LabelSelectorAsSelector` belongs to the
apimachinery library and is not under src/; the spec reads a selector as
label requirements that the labels of a pod match or not.  On selectors made
of `matchLabels`, as documented by the library: a nil selector is
`labels.Nothing()`, and a selector without requirements is the empty
selector, which matches everything. -/
def LabelSelectorAsSelector : Option LabelSelector → Selector
  | none => Selector.nothing
  | some ps => Selector.requirements ps.MatchLabels

/-- The method `Selector.Empty()`. -/
def Selector.Empty : Selector → Bool
  | Selector.nothing => false
  | Selector.requirements reqs => reqs.isEmpty

/-- The method `Selector.Matches(labels.Set(ls))`. -/
def Selector.Matches : Selector → List (String × String) → Bool
  | Selector.nothing, _ => false
  | Selector.requirements reqs, ls => reqs.all (fun kv => decide (ls.lookup kv.1 = some kv.2))

/-! ## The cluster -/

/-- The error of a failed `Get`. -/
inductive GetError where
  | notFound
  | other
  deriving DecidableEq

/-- The answers of the API server at the time of one event: `Get` by
namespace and name, `List` by namespace (a failed `List` yields no items),
and the custom resource definitions (`none` when `wh.extensionsClient` is
nil, an error when the listing fails). -/
structure Gateway where
  getReplicaSet : String → String → Except GetError Controller
  getDeployment : String → String → Except GetError Controller
  getDaemonSet : String → String → Except GetError Controller
  getStatefulSet : String → String → Except GetError Controller
  getJob : String → String → Except GetError Controller
  getCronJob : String → String → Except GetError Controller
  getPod : String → String → Except GetError Pod
  listDeployments : String → List Controller
  listCronJobs : String → List Controller
  extensionsClient : Option (Except GetError (List CRD))

/-! ## The data model of `podwatch.go` -/

/-- The struct `CRDOwnerData`. -/
structure CRDOwnerData where
  toTypeMeta : TypeMeta
  deriving DecidableEq

/-- The dynamic value of the field `OwnerData interface{}`: nil, or a pointer
whose Go type is the one of the typed client that fetched it, or a
`CRDOwnerData`.  `BatchV1beta1().CronJobs(ns).Get` returns a
`*v1beta1.CronJob`. -/
inductive OwnerData where
  | nil
  | deployment (d : Controller)
  | daemonSet (d : Controller)
  | statefulSet (d : Controller)
  | job (d : Controller)
  | cronJobV1beta1 (d : Controller)
  | pod (p : Pod)
  | crd (c : CRDOwnerData)
  deriving DecidableEq

/-- The struct `OwnerDet`. -/
structure OwnerDet where
  Name : String
  Kind : String
  OwnerData : OwnerData
  deriving DecidableEq

/-- The struct `OwnerDetNameAndKindOnly`. -/
structure OwnerDetNameAndKindOnly where
  Name : String
  Kind : String
  deriving DecidableEq

/-- The struct `MicroServiceData`. -/
structure MicroServiceData where
  Pod : Pod
  Owner : OwnerDet
  PodSpecId : Int
  deriving DecidableEq

/-- The struct `PodDataForExistMicroService`. -/
structure PodDataForExistMicroService where
  PodName : String
  NumberOfRunnigPods : Int
  NodeName : String
  PodIP : String
  Namespace : String
  Owner : OwnerDetNameAndKindOnly
  deriving DecidableEq

/-- The contents of one `*list.List` of the registry, front to back. -/
inductive PodList where
  | empty
  | elems (front : MicroServiceData) (rest : List PodDataForExistMicroService)
  deriving DecidableEq

/-- The method `Len()`. -/
def PodList.Len : PodList → Int
  | PodList.empty => 0
  | PodList.elems _ rest => 1 + rest.length

/-- The registry `pdm map[int]*list.List`: its entries in iteration order. -/
abbrev Registry := List (Int × PodList)

/-- The map read `pdm[id]`; `none` is the nil pointer of a missing key. -/
def pdmGet (pdm : Registry) (id : Int) : Option PodList :=
  pdm.lookup id

/-- The map write `pdm[id] = v`. -/
def pdmSet : Registry → Int → PodList → Registry
  | [], id, v => [(id, v)]
  | (k, w) :: rest, id, v => if k = id then (k, v) :: rest else (k, w) :: pdmSet rest id v

/-- The run-time faults of the embedded code. -/
inductive Fault where
  | nilDereference
  | typeAssertion
  | unrepresentable
  deriving DecidableEq

/-- The first argument of `AddToJsonFormat`. -/
inductive ReportObject where
  | microService (m : MicroServiceData)
  | pod (p : PodDataForExistMicroService)
  deriving DecidableEq

/-- The second argument of `AddToJsonFormat`. -/
inductive ObjectKind where
  | MICROSERVICES
  | PODS
  deriving DecidableEq

/-- The third argument of `AddToJsonFormat`. -/
inductive Action where
  | CREATED
  | UPDATED
  | DELETED
  deriving DecidableEq

/-- One call of `wh.jsonReport.AddToJsonFormat`. -/
structure Report where
  obj : ReportObject
  kind : ObjectKind
  action : Action
  deriving DecidableEq

/-- The part of `WatchHandler` the pod watch reads and writes: the registry,
the calls of `AddToJsonFormat` so far (oldest first), the number of calls of
`informNewDataArrive`, and the counter behind `CreateID`. -/
structure WatchHandler where
  pdm : Registry
  jsonReport : List Report
  informed : Nat
  lastID : Int
  deriving DecidableEq

/-- Modelled from the spec: `CreateID` is not under src/; the spec describes
the identifier generator as a bare incrementing counter outside the
registry.  Given the counter, the result is the new identifier, which is
also the new counter. -/
def CreateID (lastID : Int) : Int :=
  lastID + 1

/-! ## Workload deduplication -/

/-- The function `IsPodSpecAlreadyExist`, given the counter behind
`CreateID`: the two results of the Go function and the counter afterwards.
`reflect.DeepEqual` on the two container slices is equality of the lists. -/
def IsPodSpecAlreadyExist (pod : Pod) : Registry → Int → (Int × Int) × Int
  | [], lastID => ((CreateID lastID, 0), CreateID lastID)
  | (_, v) :: rest, lastID =>
    match v with
    | PodList.empty => IsPodSpecAlreadyExist pod rest lastID
    | PodList.elems p tl =>
      if pod.Spec.Containers = p.Pod.Spec.Containers then
        ((p.PodSpecId, (PodList.elems p tl).Len), lastID)
      else IsPodSpecAlreadyExist pod rest lastID

/-! ## Owner resolution -/

/-- The function `GetOwnerData`. -/
def GetOwnerData (name kind apiVersion ns : String) (wh : Gateway) : OwnerData :=
  if kind = "Deployment" then
    match wh.getDeployment ns name with
    | Except.error _ => OwnerData.nil
    | Except.ok depDet => OwnerData.deployment { depDet with toTypeMeta := ⟨kind, apiVersion⟩ }
  else if kind = "DeamonSet" ∨ kind = "DaemonSet" then
    match wh.getDaemonSet ns name with
    | Except.error _ => OwnerData.nil
    | Except.ok daemSetDet => OwnerData.daemonSet { daemSetDet with toTypeMeta := ⟨kind, apiVersion⟩ }
  else if kind = "StatefulSet" then
    match wh.getStatefulSet ns name with
    | Except.error _ => OwnerData.nil
    | Except.ok statSetDet => OwnerData.statefulSet { statSetDet with toTypeMeta := ⟨kind, apiVersion⟩ }
  else if kind = "Job" then
    match wh.getJob ns name with
    | Except.error _ => OwnerData.nil
    | Except.ok jobDet => OwnerData.job { jobDet with toTypeMeta := ⟨kind, apiVersion⟩ }
  else if kind = "CronJob" then
    match wh.getCronJob ns name with
    | Except.error _ => OwnerData.nil
    | Except.ok cronJobDet => OwnerData.cronJobV1beta1 { cronJobDet with toTypeMeta := ⟨kind, apiVersion⟩ }
  else if kind = "Pod" then
    match wh.getPod ns name with
    | Except.error _ => OwnerData.nil
    | Except.ok podDet => OwnerData.pod { podDet with toTypeMeta := ⟨kind, apiVersion⟩ }
  else
    match wh.extensionsClient with
    | none => OwnerData.nil
    | some (Except.error _) => OwnerData.nil
    | some (Except.ok crds) =>
      match crds.find? (fun c => decide (c.AcceptedKind = kind)) with
      | some c => OwnerData.crd ⟨⟨c.Kind, apiVersion⟩⟩
      | none => OwnerData.nil

/-- The zero value `OwnerDet{}`. -/
def OwnerDet.zero : OwnerDet := ⟨"", "", OwnerData.nil⟩

/-- The zero value of a controller object, which the typed client returns
next to an error. -/
def Controller.zero : Controller := ⟨⟨"", ""⟩, ⟨"", "", "", "", [], []⟩, none⟩

/-- The loop `for _, item := range depList.Items` of `GetAncestorOfPod`: the
item at which the loop returns, if any.  The test of the loop reads the
selector and the labels of the pod, not the item. -/
def selectItem (selector : Selector) (podLabels : List (String × String)) :
    List Controller → Option Controller
  | [] => none
  | item :: items =>
    if selector.Empty || !selector.Matches podLabels then selectItem selector podLabels items
    else some item

/-- The last four statements of `GetAncestorOfPod`: the pod is its own
owner. -/
def podAsOwner (pod : Pod) (wh : Gateway) : OwnerDet :=
  let od : OwnerDet :=
    ⟨pod.ObjectMeta.Name, "Pod",
      GetOwnerData pod.ObjectMeta.Name "Pod" pod.toTypeMeta.APIVersion pod.ObjectMeta.Namespace wh⟩
  match od.OwnerData with
  | OwnerData.crd c => { od with Kind := c.toTypeMeta.Kind }
  | _ => od

/-- The function `GetAncestorOfPod`. -/
def GetAncestorOfPod (pod : Pod) (wh : Gateway) : OwnerDet :=
  match pod.ObjectMeta.OwnerReferences with
  | [] => podAsOwner pod wh
  | ref0 :: _ =>
    if ref0.Kind = "ReplicaSet" then
      let repItem :=
        match wh.getReplicaSet pod.ObjectMeta.Namespace ref0.Name with
        | Except.ok r => r
        | Except.error _ => Controller.zero
      match repItem.ObjectMeta.OwnerReferences with
      | o :: _ =>
        ⟨o.Name, o.Kind, GetOwnerData o.Name o.Kind o.APIVersion pod.ObjectMeta.Namespace wh⟩
      | [] =>
        let selector := LabelSelectorAsSelector repItem.Selector
        match selectItem selector pod.ObjectMeta.Labels
            (wh.listDeployments pod.ObjectMeta.Namespace) with
        | some item =>
          ⟨item.ObjectMeta.Name, item.toTypeMeta.Kind,
            GetOwnerData item.ObjectMeta.Name item.toTypeMeta.Kind item.toTypeMeta.APIVersion
              pod.ObjectMeta.Namespace wh⟩
        | none => podAsOwner pod wh
    else if ref0.Kind = "Job" then
      match wh.getJob pod.ObjectMeta.Namespace ref0.Name with
      | Except.error _ => OwnerDet.zero
      | Except.ok jobItem =>
        match jobItem.ObjectMeta.OwnerReferences with
        | o :: _ =>
          ⟨o.Name, o.Kind, GetOwnerData o.Name o.Kind o.APIVersion pod.ObjectMeta.Namespace wh⟩
        | [] =>
          let selector := LabelSelectorAsSelector jobItem.Selector
          match selectItem selector pod.ObjectMeta.Labels
              (wh.listCronJobs pod.ObjectMeta.Namespace) with
          | some item =>
            ⟨item.ObjectMeta.Name, item.toTypeMeta.Kind,
              GetOwnerData item.ObjectMeta.Name item.toTypeMeta.Kind item.toTypeMeta.APIVersion
                pod.ObjectMeta.Namespace wh⟩
          | none => podAsOwner pod wh
    else
      ⟨ref0.Name, ref0.Kind,
        GetOwnerData ref0.Name ref0.Kind ref0.APIVersion pod.ObjectMeta.Namespace wh⟩

/-! ## Update -/

/-- The method `UpdatePod`: the two results, or the fault of
`v.Front().Next()` on a list without front.  Every `DeepCopy` of the method
receives its destination by value (`*v.Front()...Pod`,
`v.Front()...Owner`, `element.Value.(...)`), so no value stored in a list is
replaced and the registry is not a result.  The `break` leaves the inner loop
only: every list of the registry is visited. -/
def UpdatePod (wh : Gateway) (pod : Pod) :
    Registry → Int × PodDataForExistMicroService → Except Fault (Int × PodDataForExistMicroService)
  | [], acc => Except.ok acc
  | (_, v) :: rest, acc =>
    match v with
    | PodList.empty => Except.error Fault.nilDereference
    | PodList.elems front tl =>
      match tl.find? (fun element => decide (element.PodName = pod.ObjectMeta.Name)) with
      | none => UpdatePod wh pod rest acc
      | some element =>
        let newOwner := GetAncestorOfPod pod wh
        let id := if front.Pod = pod then front.PodSpecId else acc.1
        UpdatePod wh pod rest
          (id, ⟨pod.ObjectMeta.Name, element.NumberOfRunnigPods, pod.Spec.NodeName,
                pod.Status.PodIP, pod.ObjectMeta.Namespace, ⟨newOwner.Name, newOwner.Kind⟩⟩)

/-- The zero value `PodDataForExistMicroService{}`. -/
def PodDataForExistMicroService.zero : PodDataForExistMicroService :=
  ⟨"", 0, "", "", "", ⟨"", ""⟩⟩

/-! ## Removal -/

/-- One `Get` of the typed client, by resource, ns and name. -/
inductive GatewayCall where
  | getDeployment (ns name : String)
  | getDaemonSet (ns name : String)
  | getStatefulSet (ns name : String)
  | getJob (ns name : String)
  | getCronJob (ns name : String)
  | getPod (ns name : String)
  deriving DecidableEq

/-- The test `errors.IsNotFound(err)` on the error of a `Get`. -/
def IsNotFound {α : Type} : Except GetError α → Bool
  | Except.error GetError.notFound => true
  | _ => false

/-- The method `isMicroServiceNeedToBeRemoved`: the `Get` calls it issues and
its result, or the fault of a failed type assertion on `ownerData`. -/
def isMicroServiceNeedToBeRemoved (wh : Gateway) (ownerData : OwnerData) (kind ns : String) :
    List GatewayCall × Except Fault Bool :=
  if kind = "Deployment" then
    match ownerData with
    | OwnerData.deployment d =>
      ([GatewayCall.getDeployment ns d.ObjectMeta.Name],
        Except.ok (IsNotFound (wh.getDeployment ns d.ObjectMeta.Name)))
    | _ => ([], Except.error Fault.typeAssertion)
  else if kind = "DeamonSet" ∨ kind = "DaemonSet" then
    match ownerData with
    | OwnerData.daemonSet d =>
      ([GatewayCall.getDaemonSet ns d.ObjectMeta.Name],
        Except.ok (IsNotFound (wh.getDaemonSet ns d.ObjectMeta.Name)))
    | _ => ([], Except.error Fault.typeAssertion)
  else if kind = "StatefulSets" then
    match ownerData with
    | OwnerData.statefulSet d =>
      ([GatewayCall.getStatefulSet ns d.ObjectMeta.Name],
        Except.ok (IsNotFound (wh.getStatefulSet ns d.ObjectMeta.Name)))
    | _ => ([], Except.error Fault.typeAssertion)
  else if kind = "Job" then
    match ownerData with
    | OwnerData.job d =>
      ([GatewayCall.getJob ns d.ObjectMeta.Name],
        Except.ok (IsNotFound (wh.getJob ns d.ObjectMeta.Name)))
    | _ => ([], Except.error Fault.typeAssertion)
  else if kind = "CronJob" then
    -- the assertion is on `*v2alpha1.CronJob`, a type no value of `OwnerData` has
    ([], Except.error Fault.typeAssertion)
  else if kind = "Pod" then
    match ownerData with
    | OwnerData.pod p =>
      ([GatewayCall.getPod ns p.ObjectMeta.Name],
        Except.ok (IsNotFound (wh.getPod ns p.ObjectMeta.Name)))
    | _ => ([], Except.error Fault.typeAssertion)
  else ([], Except.ok false)

/-- The inner loop of `RemovePod` with its `v.Remove(element)`: the first
element whose `PodName` is the name of the pod or, failing that, its
generate-name, and the elements that stay, in order. -/
def removeElement (pod : Pod) :
    List PodDataForExistMicroService →
      Option (PodDataForExistMicroService × List PodDataForExistMicroService)
  | [] => none
  | element :: next =>
    if element.PodName = pod.ObjectMeta.Name then some (element, next)
    else if element.PodName = pod.ObjectMeta.GenerateName then some (element, next)
    else
      match removeElement pod next with
      | none => none
      | some (e, stay) => some (e, element :: stay)

/-- The four results of `RemovePod` and the registry it leaves. -/
structure RemoveResult where
  pdm : Registry
  podSpecID : Int
  numberOfRunningPods : Int
  removed : Bool
  owner : OwnerDet
  deriving DecidableEq

/-- What one call of `RemovePod` does: the arguments of every call of
`isMicroServiceNeedToBeRemoved` it makes, the `Get` calls issued, and the
results or the fault that ended the call. -/
structure RemoveOutcome where
  ownerChecks : List (OwnerData × String × String)
  calls : List GatewayCall
  result : Except Fault RemoveResult

/-- The body of `RemovePod` for one list `v` stored under key `k`, once
`element` has been found and removed, `stay` being the elements after the
front that are left; `before` and `after` are the other entries of the
registry.  Both branches of the source (match on the name, match on the
generate-name) run these statements. -/
def removeFound (wh : Gateway) (before : Registry) (k : Int) (front : MicroServiceData)
    (element : PodDataForExistMicroService) (stay : List PodDataForExistMicroService)
    (after : Registry) : RemoveOutcome :=
  let owner := front.Owner
  if (PodList.elems front stay).Len = 1 then
    let msd := front
    let chk := isMicroServiceNeedToBeRemoved wh msd.Owner.OwnerData msd.Owner.Kind
      msd.Pod.ObjectMeta.Namespace
    { ownerChecks := [(msd.Owner.OwnerData, msd.Owner.Kind, msd.Pod.ObjectMeta.Namespace)]
      calls := chk.1
      result :=
        match chk.2 with
        | Except.error f => Except.error f
        | Except.ok removed =>
          Except.ok
            { pdm := before ++ (k, if removed then PodList.empty else PodList.elems front stay) :: after
              podSpecID := front.PodSpecId
              numberOfRunningPods := element.NumberOfRunnigPods
              removed := removed
              owner := owner } }
  else
    { ownerChecks := []
      calls := []
      result := Except.ok
        { pdm := before ++ (k, PodList.elems front stay) :: after
          podSpecID := front.PodSpecId
          numberOfRunningPods := element.NumberOfRunnigPods
          removed := false
          owner := owner } }

/-- The outer loop of `RemovePod` over the entries still to visit, `before`
being the entries already visited. -/
def RemovePod.loop (wh : Gateway) (pod : Pod) : Registry → Registry → RemoveOutcome
  | before, [] =>
    { ownerChecks := []
      calls := []
      result := Except.ok
        { pdm := before, podSpecID := 0, numberOfRunningPods := 0, removed := false,
          owner := OwnerDet.zero } }
  | before, (k, v) :: after =>
    match v with
    | PodList.empty => RemovePod.loop wh pod (before ++ [(k, v)]) after
    | PodList.elems front tl =>
      match removeElement pod tl with
      | none => RemovePod.loop wh pod (before ++ [(k, v)]) after
      | some (element, stay) => removeFound wh before k front element stay after

/-- The method `RemovePod`. -/
def RemovePod (wh : Gateway) (pod : Pod) (pdm : Registry) : RemoveOutcome :=
  RemovePod.loop wh pod [] pdm

/-! ## The event loop -/

/-- One `watch.Event`: its type and its object, `none` when the object is not
a `*core.Pod`. -/
structure Event where
  EventType : String
  Object : Option Pod
  deriving DecidableEq

/-- The method `PushBack` with a `PodDataForExistMicroService`.  On a list
without front the value would become the front, a shape the registry type
does not have. -/
def PodList.PushBack : PodList → PodDataForExistMicroService → Except Fault PodList
  | PodList.empty, _ => Except.error Fault.unrepresentable
  | PodList.elems front tl, np => Except.ok (PodList.elems front (tl ++ [np]))

/-- The end of the `ADDED` case, from `np := ...` to `informNewDataArrive`.
The goroutine started for a pending pod runs outside the event loop and is
not part of the step. -/
def PodWatch.addPod (pod : Pod) (podName : String) (od : OwnerDet) (id runnigPodNum : Int)
    (wh : WatchHandler) : Except Fault WatchHandler :=
  let np : PodDataForExistMicroService :=
    ⟨podName, runnigPodNum, pod.Spec.NodeName, pod.Status.PodIP, pod.ObjectMeta.Namespace,
      ⟨od.Name, od.Kind⟩⟩
  match pdmGet wh.pdm id with
  | none => Except.error Fault.nilDereference
  | some v =>
    match v.PushBack np with
    | Except.error f => Except.error f
    | Except.ok w =>
      Except.ok
        { wh with
          pdm := pdmSet wh.pdm id w
          jsonReport := wh.jsonReport ++ [⟨ReportObject.pod np, ObjectKind.PODS, Action.CREATED⟩]
          informed := wh.informed + 1 }

/-- The `ADDED` case of `PodWatch`. -/
def PodWatch.added (gw : Gateway) (pod : Pod) (wh : WatchHandler) : Except Fault WatchHandler :=
  let podName := if pod.ObjectMeta.Name = "" then pod.ObjectMeta.GenerateName else pod.ObjectMeta.Name
  let od := GetAncestorOfPod pod gw
  let found := IsPodSpecAlreadyExist pod wh.pdm wh.lastID
  let id := found.1.1
  let runnigPodNum := found.1.2
  let wh1 := { wh with lastID := found.2 }
  if runnigPodNum = 0 then
    let nms : MicroServiceData := ⟨pod, od, id⟩
    PodWatch.addPod pod podName od id 1
      { wh1 with
        pdm := pdmSet wh1.pdm id (PodList.elems nms [])
        jsonReport :=
          wh1.jsonReport ++ [⟨ReportObject.microService nms, ObjectKind.MICROSERVICES, Action.CREATED⟩] }
  else
    match pdmGet wh1.pdm id with
    | none => Except.error Fault.nilDereference
    | some v =>
      let first :=
        match v with
        | PodList.empty => true
        | PodList.elems _ tl => !(tl.any (fun element => decide (element.PodName = podName)))
      if !first then Except.ok wh1
      else PodWatch.addPod pod podName od id runnigPodNum wh1

/-- The `MODIFY` case of `PodWatch`. -/
def PodWatch.modify (gw : Gateway) (pod : Pod) (wh : WatchHandler) : Except Fault WatchHandler :=
  match UpdatePod gw pod wh.pdm (-1, PodDataForExistMicroService.zero) with
  | Except.error f => Except.error f
  | Except.ok (podSpecID, newPodData) =>
    let reports := wh.jsonReport ++ [⟨ReportObject.pod newPodData, ObjectKind.PODS, Action.UPDATED⟩]
    if podSpecID ≠ -1 then
      match pdmGet wh.pdm podSpecID with
      | some (PodList.elems front _) =>
        Except.ok
          { wh with
            jsonReport :=
              reports ++ [⟨ReportObject.microService front, ObjectKind.MICROSERVICES, Action.UPDATED⟩]
            informed := wh.informed + 1 }
      | _ => Except.error Fault.nilDereference
    else Except.ok { wh with jsonReport := reports, informed := wh.informed + 1 }

/-- The `DELETED` case of `PodWatch`. -/
def PodWatch.deleted (gw : Gateway) (pod : Pod) (wh : WatchHandler) : Except Fault WatchHandler :=
  match (RemovePod gw pod wh.pdm).result with
  | Except.error f => Except.error f
  | Except.ok r =>
    let np : PodDataForExistMicroService :=
      ⟨pod.ObjectMeta.Name, r.numberOfRunningPods - 1, pod.Spec.NodeName, pod.Status.PodIP,
        pod.ObjectMeta.Namespace, ⟨r.owner.Name, r.owner.Kind⟩⟩
    let reports := wh.jsonReport ++ [⟨ReportObject.pod np, ObjectKind.PODS, Action.DELETED⟩]
    let nms : MicroServiceData := ⟨pod, r.owner, r.podSpecID⟩
    Except.ok
      { wh with
        pdm := r.pdm
        jsonReport :=
          if r.removed then
            reports ++ [⟨ReportObject.microService nms, ObjectKind.MICROSERVICES, Action.DELETED⟩]
          else reports
        informed := wh.informed + 1 }

/-- The body of `for event := range podsChan` in `PodWatch`, for one event:
the handler afterwards, or the fault that the deferred `recover` of
`PodWatch` catches. -/
def PodWatch (gw : Gateway) (event : Event) (wh : WatchHandler) : Except Fault WatchHandler :=
  match event.Object with
  | none => Except.ok wh
  | some pod =>
    if event.EventType = "ADDED" then PodWatch.added gw pod wh
    else if event.EventType = "MODIFY" then PodWatch.modify gw pod wh
    else if event.EventType = "DELETED" then PodWatch.deleted gw pod wh
    else Except.ok wh

/-- The loop `for event := range podsChan` of `PodWatch` on a finite stream:
each event comes with the answers of the cluster at its time.  A fault ends
the loop, as the deferred `recover` makes `PodWatch` return. -/
def PodWatch.run : WatchHandler → List (Gateway × Event) → Except Fault WatchHandler
  | wh, [] => Except.ok wh
  | wh, (gw, event) :: events =>
    match PodWatch gw event wh with
    | Except.error f => Except.error f
    | Except.ok wh1 => PodWatch.run wh1 events

/-! ## Predicates of the statements -/

/-- The list has a front, and the container list of the pod equals the one of
the front: the test of `IsPodSpecAlreadyExist`. -/
def PodList.matchesSpec (pod : Pod) : PodList → Prop
  | PodList.empty => False
  | PodList.elems p _ => pod.Spec.Containers = p.Pod.Spec.Containers

instance PodList.decidableMatchesSpec (pod : Pod) : (v : PodList) → Decidable (v.matchesSpec pod)
  | PodList.empty => isFalse (fun h => h)
  | PodList.elems p _ => inferInstanceAs (Decidable (pod.Spec.Containers = p.Pod.Spec.Containers))

/-- The identifier of the front, if the list has one, is at most `lastID`:
it is one that `CreateID` has already handed out. -/
def PodList.idAtMost (lastID : Int) : PodList → Prop
  | PodList.empty => True
  | PodList.elems p _ => p.PodSpecId ≤ lastID

instance PodList.decidableIdAtMost (lastID : Int) : (v : PodList) → Decidable (v.idAtMost lastID)
  | PodList.empty => isTrue trivial
  | PodList.elems p _ => inferInstanceAs (Decidable (p.PodSpecId ≤ lastID))

/-- The list has an element after the front whose `PodName` is the name or
the generate-name of the pod: the test of the inner loop of `RemovePod`. -/
def PodList.holdsPod (pod : Pod) : PodList → Prop
  | PodList.empty => False
  | PodList.elems _ tl =>
    ∃ r ∈ tl, r.PodName = pod.ObjectMeta.Name ∨ r.PodName = pod.ObjectMeta.GenerateName

instance PodList.decidableHoldsPod (pod : Pod) : (v : PodList) → Decidable (v.holdsPod pod)
  | PodList.empty => isFalse (fun h => h)
  | PodList.elems _ tl =>
    inferInstanceAs (Decidable
      (∃ r ∈ tl, r.PodName = pod.ObjectMeta.Name ∨ r.PodName = pod.ObjectMeta.GenerateName))

/-- The list has a front equal to the pod and an element after it with the
name of the pod: the two tests of `UpdatePod` under which it sets `id`. -/
def PodList.refreshedBy (pod : Pod) : PodList → Prop
  | PodList.empty => False
  | PodList.elems front tl => (∃ r ∈ tl, r.PodName = pod.ObjectMeta.Name) ∧ front.Pod = pod

/-- The owner check of `isMicroServiceNeedToBeRemoved` can answer and finds
the owner gone: the kind and the Go type of the payload agree on one of
Deployment, DaemonSet, Job or Pod, and the `Get` of the owner by the name in
the payload is answered NotFound. -/
def ownerReportedGone (gw : Gateway) (owner : OwnerDet) (ns : String) : Prop :=
  match owner.OwnerData with
  | OwnerData.deployment d =>
    owner.Kind = "Deployment" ∧ IsNotFound (gw.getDeployment ns d.ObjectMeta.Name) = true
  | OwnerData.daemonSet d =>
    (owner.Kind = "DeamonSet" ∨ owner.Kind = "DaemonSet") ∧
      IsNotFound (gw.getDaemonSet ns d.ObjectMeta.Name) = true
  | OwnerData.job d => owner.Kind = "Job" ∧ IsNotFound (gw.getJob ns d.ObjectMeta.Name) = true
  | OwnerData.pod p => owner.Kind = "Pod" ∧ IsNotFound (gw.getPod ns p.ObjectMeta.Name) = true
  | _ => False

/-- The invariant of the handler under the event loop: the registry is a map
(distinct keys), every key was handed out by `CreateID`, a front carries the
key of its list as `PodSpecId`, and two lists whose fronts have the same
container list are the same list. -/
def WatchHandler.wellFormed (wh : WatchHandler) : Prop :=
  (wh.pdm.map Prod.fst).Nodup ∧
  (∀ e ∈ wh.pdm, e.1 ≤ wh.lastID) ∧
  (∀ k p tl, (k, PodList.elems p tl) ∈ wh.pdm → p.PodSpecId = k) ∧
  (∀ k1 p1 tl1 k2 p2 tl2, (k1, PodList.elems p1 tl1) ∈ wh.pdm →
    (k2, PodList.elems p2 tl2) ∈ wh.pdm →
    p1.Pod.Spec.Containers = p2.Pod.Spec.Containers → k1 = k2)

/-- The `Get` of the owner check for an owner whose kind and payload type
agree on Deployment, DaemonSet, Job or Pod: the call, by namespace and the
name in the payload, and whether the cluster answers it NotFound.  `none` for
every other owner. -/
def ownerGet (gw : Gateway) (owner : OwnerDet) (ns : String) : Option (GatewayCall × Bool) :=
  match owner.OwnerData with
  | OwnerData.deployment d =>
    if owner.Kind = "Deployment" then
      some (GatewayCall.getDeployment ns d.ObjectMeta.Name,
        IsNotFound (gw.getDeployment ns d.ObjectMeta.Name))
    else none
  | OwnerData.daemonSet d =>
    if owner.Kind = "DeamonSet" ∨ owner.Kind = "DaemonSet" then
      some (GatewayCall.getDaemonSet ns d.ObjectMeta.Name,
        IsNotFound (gw.getDaemonSet ns d.ObjectMeta.Name))
    else none
  | OwnerData.job d =>
    if owner.Kind = "Job" then
      some (GatewayCall.getJob ns d.ObjectMeta.Name, IsNotFound (gw.getJob ns d.ObjectMeta.Name))
    else none
  | OwnerData.pod p =>
    if owner.Kind = "Pod" then
      some (GatewayCall.getPod ns p.ObjectMeta.Name, IsNotFound (gw.getPod ns p.ObjectMeta.Name))
    else none
  | _ => none

/-- The kind is none of the built-in owner kinds, in any spelling of the
source: the kind of a custom resource, or no kind at all. -/
def customKind (kind : String) : Prop :=
  kind ≠ "Deployment" ∧ kind ≠ "DeamonSet" ∧ kind ≠ "DaemonSet" ∧ kind ≠ "StatefulSet" ∧
    kind ≠ "StatefulSets" ∧ kind ≠ "Job" ∧ kind ≠ "CronJob" ∧ kind ≠ "Pod"

instance customKind.decidable (kind : String) : Decidable (customKind kind) :=
  inferInstanceAs (Decidable
    (kind ≠ "Deployment" ∧ kind ≠ "DeamonSet" ∧ kind ≠ "DaemonSet" ∧ kind ≠ "StatefulSet" ∧
      kind ≠ "StatefulSets" ∧ kind ≠ "Job" ∧ kind ≠ "CronJob" ∧ kind ≠ "Pod"))

/-! ## The scenarios of the specification, as data -/

/-- A cluster without any object: every `Get` is answered NotFound. -/
def noCluster : Gateway :=
  { getReplicaSet := fun _ _ => Except.error GetError.notFound
    getDeployment := fun _ _ => Except.error GetError.notFound
    getDaemonSet := fun _ _ => Except.error GetError.notFound
    getStatefulSet := fun _ _ => Except.error GetError.notFound
    getJob := fun _ _ => Except.error GetError.notFound
    getCronJob := fun _ _ => Except.error GetError.notFound
    getPod := fun _ _ => Except.error GetError.notFound
    listDeployments := fun _ => []
    listCronJobs := fun _ => []
    extensionsClient := none }

/-- The pod "web-7f8-abcd" of ReplicaSet "web-7f8". -/
def webPod : Pod :=
  ⟨⟨"Pod", "v1"⟩,
    ⟨"web-7f8-abcd", "web-7f8-", "default", "41", [("app", "web")],
      [⟨"apps/v1", "ReplicaSet", "web-7f8"⟩]⟩,
    ⟨[⟨"web", "nginx:1.19", ["nginx"], [], [("cpu", "500m")]⟩], "node-1"⟩,
    ⟨"Running", "10.0.0.7"⟩⟩

/-- A second pod of the same ReplicaSet, with the same container list. -/
def webPodTwin : Pod :=
  ⟨⟨"Pod", "v1"⟩,
    ⟨"web-7f8-efgh", "web-7f8-", "default", "42", [("app", "web")],
      [⟨"apps/v1", "ReplicaSet", "web-7f8"⟩]⟩,
    ⟨[⟨"web", "nginx:1.19", ["nginx"], [], [("cpu", "500m")]⟩], "node-2"⟩,
    ⟨"Running", "10.0.0.8"⟩⟩

/-- The pod "web-7f8-abcd" again, with a new pod IP and resource version and
the same container list. -/
def webPodMoved : Pod :=
  ⟨⟨"Pod", "v1"⟩,
    ⟨"web-7f8-abcd", "web-7f8-", "default", "57", [("app", "web")],
      [⟨"apps/v1", "ReplicaSet", "web-7f8"⟩]⟩,
    ⟨[⟨"web", "nginx:1.19", ["nginx"], [], [("cpu", "500m")]⟩], "node-1"⟩,
    ⟨"Running", "10.0.0.9"⟩⟩

/-- The ReplicaSet "web-7f8", owned by the Deployment "web". -/
def webReplicaSet : Controller :=
  ⟨⟨"ReplicaSet", "apps/v1"⟩,
    ⟨"web-7f8", "", "default", "40", [("app", "web")], [⟨"apps/v1", "Deployment", "web"⟩]⟩,
    some ⟨[("app", "web")]⟩⟩

/-- The Deployment "web". -/
def webDeployment : Controller :=
  ⟨⟨"", ""⟩, ⟨"web", "", "default", "39", [("app", "web")], []⟩, some ⟨[("app", "web")]⟩⟩

/-- The cluster with the ReplicaSet "web-7f8" and the Deployment "web". -/
def webCluster : Gateway :=
  { noCluster with
    getReplicaSet := fun ns name =>
      if ns = "default" ∧ name = "web-7f8" then Except.ok webReplicaSet
      else Except.error GetError.notFound
    getDeployment := fun ns name =>
      if ns = "default" ∧ name = "web" then Except.ok webDeployment
      else Except.error GetError.notFound
    listDeployments := fun ns => if ns = "default" then [webDeployment] else [] }

/-- The front of the list of workload "web" under identifier `id`. -/
def webHead (id : Int) : MicroServiceData :=
  ⟨webPod,
    ⟨"web", "Deployment", OwnerData.deployment { webDeployment with toTypeMeta := ⟨"Deployment", "apps/v1"⟩ }⟩,
    id⟩

/-- The element of pod "web-7f8-abcd". -/
def webRecord : PodDataForExistMicroService :=
  ⟨"web-7f8-abcd", 1, "node-1", "10.0.0.7", "default", ⟨"web", "Deployment"⟩⟩

/-- The element of pod "web-7f8-efgh". -/
def webTwinRecord : PodDataForExistMicroService :=
  ⟨"web-7f8-efgh", 2, "node-2", "10.0.0.8", "default", ⟨"web", "Deployment"⟩⟩

/-- The pod "db-0" of StatefulSet "db". -/
def dbPod : Pod :=
  ⟨⟨"Pod", "v1"⟩,
    ⟨"db-0", "db-", "default", "12", [("app", "db")], [⟨"apps/v1", "StatefulSet", "db"⟩]⟩,
    ⟨[⟨"db", "postgres:13", [], [], []⟩], "node-1"⟩,
    ⟨"Running", "10.0.0.3"⟩⟩

/-- The StatefulSet "db". -/
def dbStatefulSet : Controller :=
  ⟨⟨"", ""⟩, ⟨"db", "", "default", "11", [("app", "db")], []⟩, some ⟨[("app", "db")]⟩⟩

/-- The cluster with the StatefulSet "db". -/
def dbCluster : Gateway :=
  { noCluster with
    getStatefulSet := fun ns name =>
      if ns = "default" ∧ name = "db" then Except.ok dbStatefulSet
      else Except.error GetError.notFound }

/-- The front of the list of workload "db": the owner is the one
`GetAncestorOfPod` resolves while the StatefulSet exists. -/
def dbHead : MicroServiceData :=
  ⟨dbPod, GetAncestorOfPod dbPod dbCluster, 1⟩

/-- The element of pod "db-0". -/
def dbRecord : PodDataForExistMicroService :=
  ⟨"db-0", 1, "node-1", "10.0.0.3", "default", ⟨"db", "StatefulSet"⟩⟩

/-- The handler before any event. -/
def emptyHandler : WatchHandler := ⟨[], [], 0, 0⟩

/-- The handler tracking workload "db" with its pod "db-0". -/
def dbHandler : WatchHandler := ⟨[(1, PodList.elems dbHead [dbRecord])], [], 0, 1⟩

/-- The handler tracking workload "db" and, under identifier 2, workload
"web" with its pod "web-7f8-abcd". -/
def webHandler : WatchHandler :=
  ⟨[(1, PodList.elems dbHead [dbRecord]), (2, PodList.elems (webHead 2) [webRecord])], [], 0, 2⟩

/-- The handler tracking workload "web" with two pods. -/
def twoPodHandler : WatchHandler :=
  ⟨[(1, PodList.elems dbHead [dbRecord]),
      (2, PodList.elems (webHead 2) [webRecord, webTwinRecord])], [], 0, 2⟩

/-- The pod "backup-1-x" of Job "backup-1". -/
def cronPod : Pod :=
  ⟨⟨"Pod", "v1"⟩,
    ⟨"backup-1-x", "backup-1-", "default", "77", [("job-name", "backup-1")],
      [⟨"batch/v1", "Job", "backup-1"⟩]⟩,
    ⟨[⟨"backup", "backup:2", ["run"], [], []⟩], "node-3"⟩,
    ⟨"Running", "10.0.0.5"⟩⟩

/-- The cluster with the Job "backup-1" owned by the CronJob "backup". -/
def cronCluster : Gateway :=
  { noCluster with
    getJob := fun ns name =>
      if ns = "default" ∧ name = "backup-1" then
        Except.ok ⟨⟨"", ""⟩,
          ⟨"backup-1", "", "default", "76", [], [⟨"batch/v1beta1", "CronJob", "backup"⟩]⟩, none⟩
      else Except.error GetError.notFound
    getCronJob := fun ns name =>
      if ns = "default" ∧ name = "backup" then
        Except.ok ⟨⟨"", ""⟩, ⟨"backup", "", "default", "75", [], []⟩, none⟩
      else Except.error GetError.notFound }

/-- The handler tracking the workload of pod "backup-1-x", the owner being
the one `GetAncestorOfPod` resolves while the CronJob exists. -/
def cronHandler : WatchHandler :=
  ⟨[(1, PodList.elems ⟨cronPod, GetAncestorOfPod cronPod cronCluster, 1⟩
      [⟨"backup-1-x", 1, "node-3", "10.0.0.5", "default", ⟨"backup", "CronJob"⟩⟩])], [], 0, 1⟩

/-- The Deployment "db", whose selector does not match the labels of
`webPod`. -/
def dbDeployment : Controller :=
  ⟨⟨"", ""⟩, ⟨"db", "", "default", "20", [("app", "db")], []⟩, some ⟨[("app", "db")]⟩⟩

/-- The cluster in which the ReplicaSet "web-7f8" has no owner reference and
the namespace lists the Deployments "db" and "web", in this order. -/
def orphanCluster : Gateway :=
  { noCluster with
    getReplicaSet := fun ns name =>
      if ns = "default" ∧ name = "web-7f8" then
        Except.ok { webReplicaSet with
          ObjectMeta := ⟨"web-7f8", "", "default", "40", [("app", "web")], []⟩ }
      else Except.error GetError.notFound
    listDeployments := fun ns => if ns = "default" then [dbDeployment, webDeployment] else [] }


/-- The cluster with the ReplicaSet "web-7f8", in which the `Get` of the
Deployment "web" fails with an error other than NotFound. -/
def rsOnlyCluster : Gateway :=
  { noCluster with
    getReplicaSet := fun ns name =>
      if ns = "default" ∧ name = "web-7f8" then Except.ok webReplicaSet
      else Except.error GetError.notFound
    getDeployment := fun _ _ => Except.error GetError.other }

/-- The handler after the `ADDED` event of pod "web-7f8-abcd" in
`rsOnlyCluster`: the owner has its name and kind and no payload. -/
def nilPayloadHandler : WatchHandler :=
  ⟨[(1, PodList.elems ⟨webPod, ⟨"web", "Deployment", OwnerData.nil⟩, 1⟩ [webRecord])],
    [⟨ReportObject.microService ⟨webPod, ⟨"web", "Deployment", OwnerData.nil⟩, 1⟩,
        ObjectKind.MICROSERVICES, Action.CREATED⟩,
      ⟨ReportObject.pod webRecord, ObjectKind.PODS, Action.CREATED⟩], 1, 1⟩

/-- The pod "roll-5c9-x" of the custom resource "roll" of kind "Rollout". -/
def crdPod : Pod :=
  ⟨⟨"Pod", "v1"⟩,
    ⟨"roll-5c9-x", "roll-5c9-", "default", "90", [("app", "roll")],
      [⟨"argoproj.io/v1alpha1", "Rollout", "roll"⟩]⟩,
    ⟨[⟨"roll", "roll:3", [], [], []⟩], "node-2"⟩,
    ⟨"Running", "10.0.0.6"⟩⟩

/-- The cluster whose custom resource definitions accept the kind
"Rollout". -/
def crdCluster : Gateway :=
  { noCluster with
    extensionsClient := some (Except.ok [⟨"CustomResourceDefinition", "Rollout"⟩]) }

/-- The front of the list of workload "roll": the owner is the one
`GetAncestorOfPod` resolves in `crdCluster`. -/
def crdHead : MicroServiceData :=
  ⟨crdPod, GetAncestorOfPod crdPod crdCluster, 1⟩

/-- The element of pod "roll-5c9-x". -/
def crdRecord : PodDataForExistMicroService :=
  ⟨"roll-5c9-x", 1, "node-2", "10.0.0.6", "default", ⟨"roll", "Rollout"⟩⟩

/-- The handler tracking workload "roll" with its pod "roll-5c9-x", as the
`ADDED` event of the pod leaves the registry. -/
def crdHandler : WatchHandler := ⟨[(1, PodList.elems crdHead [crdRecord])], [], 0, 1⟩

/-! ## Lemmas -/

theorem pdmGet_pdmSet (pdm : Registry) (id : Int) (v : PodList) :
    pdmGet (pdmSet pdm id v) id = some v := by
  induction pdm with
  | nil => simp [pdmSet, pdmGet, List.lookup]
  | cons e rest ih =>
    obtain ⟨k, w⟩ := e
    by_cases h : k = id
    · simp [pdmSet, pdmGet, List.lookup, h]
    · have h2 : (id == k) = false := by simpa using fun h3 => h h3.symm
      simp only [pdmGet] at ih
      simp [pdmSet, pdmGet, List.lookup, h, h2, ih]

theorem pdmSet_pdmSet (pdm : Registry) (id : Int) (v w : PodList) :
    pdmSet (pdmSet pdm id v) id w = pdmSet pdm id w := by
  induction pdm with
  | nil => simp [pdmSet]
  | cons e rest ih =>
    obtain ⟨k, u⟩ := e
    by_cases h : k = id
    · simp [pdmSet, h]
    · simp [pdmSet, h, ih]

theorem mem_pdmSet (pdm : Registry) (id : Int) (v : PodList) (e : Int × PodList)
    (h : e ∈ pdmSet pdm id v) : e = (id, v) ∨ e ∈ pdm := by
  induction pdm with
  | nil => simpa [pdmSet] using h
  | cons a rest ih =>
    obtain ⟨k, u⟩ := a
    by_cases hk : k = id
    · simp only [pdmSet, hk, if_true, List.mem_cons] at h
      rcases h with h | h
      · exact Or.inl h
      · exact Or.inr (List.mem_cons_of_mem _ h)
    · simp only [pdmSet, hk, if_false, List.mem_cons] at h
      rcases h with h | h
      · exact Or.inr (h ▸ List.mem_cons_self _ _)
      · rcases ih h with h2 | h2
        · exact Or.inl h2
        · exact Or.inr (List.mem_cons_of_mem _ h2)

theorem pdmSet_mem (pdm : Registry) (id : Int) (v : PodList) : (id, v) ∈ pdmSet pdm id v := by
  induction pdm with
  | nil => simp [pdmSet]
  | cons a rest ih =>
    obtain ⟨k, u⟩ := a
    by_cases hk : k = id
    · simp [pdmSet, hk]
    · simp only [pdmSet, hk, if_false, List.mem_cons]
      exact Or.inr ih

/-- What `IsPodSpecAlreadyExist` returns: a new identifier and 0 when no list
matches, and otherwise the identifier and length of a matching list. -/
theorem IsPodSpecAlreadyExist_cases (pod : Pod) (pdm : Registry) (lastID : Int) :
    ((∀ e ∈ pdm, ¬ e.2.matchesSpec pod) ∧
        IsPodSpecAlreadyExist pod pdm lastID = ((CreateID lastID, 0), CreateID lastID)) ∨
      ∃ k p tl, (k, PodList.elems p tl) ∈ pdm ∧ pod.Spec.Containers = p.Pod.Spec.Containers ∧
        IsPodSpecAlreadyExist pod pdm lastID = ((p.PodSpecId, 1 + (tl.length : Int)), lastID) := by
  induction pdm with
  | nil => left; simp [IsPodSpecAlreadyExist]
  | cons e rest ih =>
    obtain ⟨k, v⟩ := e
    cases v with
    | empty =>
      rcases ih with ⟨h1, h2⟩ | ⟨k2, p, tl, h1, h2, h3⟩
      · left
        refine ⟨?_, by simpa [IsPodSpecAlreadyExist] using h2⟩
        intro e he
        rcases List.mem_cons.1 he with rfl | he
        · simp [PodList.matchesSpec]
        · exact h1 e he
      · right
        exact ⟨k2, p, tl, List.mem_cons_of_mem _ h1, h2, by simpa [IsPodSpecAlreadyExist] using h3⟩
    | elems p tl =>
      by_cases hm : pod.Spec.Containers = p.Pod.Spec.Containers
      · right
        exact ⟨k, p, tl, List.mem_cons_self _ _, hm, by simp [IsPodSpecAlreadyExist, hm, PodList.Len]⟩
      · rcases ih with ⟨h1, h2⟩ | ⟨k2, p2, tl2, h1, h2, h3⟩
        · left
          refine ⟨?_, by simpa [IsPodSpecAlreadyExist, hm] using h2⟩
          intro e he
          rcases List.mem_cons.1 he with rfl | he
          · simpa [PodList.matchesSpec] using hm
          · exact h1 e he
        · right
          exact ⟨k2, p2, tl2, List.mem_cons_of_mem _ h1, h2,
            by simpa [IsPodSpecAlreadyExist, hm] using h3⟩

theorem IsPodSpecAlreadyExist_none (pod : Pod) (pdm : Registry) (lastID : Int)
    (h : ∀ e ∈ pdm, ¬ e.2.matchesSpec pod) :
    IsPodSpecAlreadyExist pod pdm lastID = ((CreateID lastID, 0), CreateID lastID) := by
  rcases IsPodSpecAlreadyExist_cases pod pdm lastID with ⟨_, h2⟩ | ⟨k, p, tl, h1, h2, _⟩
  · exact h2
  · exact absurd (by simpa [PodList.matchesSpec] using h2) (h _ h1)

theorem IsPodSpecAlreadyExist_unique (pod : Pod) (pdm : Registry) (lastID : Int) (k : Int)
    (front : MicroServiceData) (tl : List PodDataForExistMicroService)
    (hmem : (k, PodList.elems front tl) ∈ pdm)
    (hmatch : pod.Spec.Containers = front.Pod.Spec.Containers)
    (huniq : ∀ e ∈ pdm, e.2.matchesSpec pod → e = (k, PodList.elems front tl)) :
    IsPodSpecAlreadyExist pod pdm lastID = ((front.PodSpecId, 1 + (tl.length : Int)), lastID) := by
  rcases IsPodSpecAlreadyExist_cases pod pdm lastID with ⟨h1, _⟩ | ⟨k2, p, tl2, h1, h2, h3⟩
  · exact absurd (by simpa [PodList.matchesSpec] using hmatch) (h1 _ hmem)
  · have := huniq _ h1 (by simpa [PodList.matchesSpec] using h2)
    simp only [Prod.mk.injEq, PodList.elems.injEq] at this
    obtain ⟨_, rfl, rfl⟩ := this
    exact h3

/-- The `ADDED` case on a pod whose container list no list of the registry
has: the handler afterwards. -/
theorem added_new (gw : Gateway) (pod : Pod) (wh : WatchHandler)
    (h : ∀ e ∈ wh.pdm, ¬ e.2.matchesSpec pod) :
    PodWatch gw ⟨"ADDED", some pod⟩ wh =
      Except.ok
        { pdm := pdmSet wh.pdm (CreateID wh.lastID)
            (PodList.elems ⟨pod, GetAncestorOfPod pod gw, CreateID wh.lastID⟩
              [⟨if pod.ObjectMeta.Name = "" then pod.ObjectMeta.GenerateName else pod.ObjectMeta.Name,
                1, pod.Spec.NodeName, pod.Status.PodIP, pod.ObjectMeta.Namespace,
                ⟨(GetAncestorOfPod pod gw).Name, (GetAncestorOfPod pod gw).Kind⟩⟩])
          jsonReport := wh.jsonReport ++
            [⟨ReportObject.microService ⟨pod, GetAncestorOfPod pod gw, CreateID wh.lastID⟩,
                ObjectKind.MICROSERVICES, Action.CREATED⟩,
              ⟨ReportObject.pod
                ⟨if pod.ObjectMeta.Name = "" then pod.ObjectMeta.GenerateName else pod.ObjectMeta.Name,
                  1, pod.Spec.NodeName, pod.Status.PodIP, pod.ObjectMeta.Namespace,
                  ⟨(GetAncestorOfPod pod gw).Name, (GetAncestorOfPod pod gw).Kind⟩⟩,
                ObjectKind.PODS, Action.CREATED⟩]
          informed := wh.informed + 1
          lastID := CreateID wh.lastID } := by
  simp [PodWatch, PodWatch.added, PodWatch.addPod, IsPodSpecAlreadyExist_none pod wh.pdm wh.lastID h,
    pdmGet_pdmSet, pdmSet_pdmSet, PodList.PushBack]

theorem GetAncestorOfPod_replicaSet_owned (gw : Gateway) (pod : Pod) (ref0 : OwnerReference)
    (refs : List OwnerReference) (rs : Controller) (o : OwnerReference) (os : List OwnerReference)
    (hrefs : pod.ObjectMeta.OwnerReferences = ref0 :: refs)
    (hkind : ref0.Kind = "ReplicaSet")
    (hget : gw.getReplicaSet pod.ObjectMeta.Namespace ref0.Name = Except.ok rs)
    (hrs : rs.ObjectMeta.OwnerReferences = o :: os) :
    GetAncestorOfPod pod gw =
      ⟨o.Name, o.Kind, GetOwnerData o.Name o.Kind o.APIVersion pod.ObjectMeta.Namespace gw⟩ := by
  simp [GetAncestorOfPod, hrefs, hkind, hget, hrs]

theorem pdmGet_of_mem (pdm : Registry) (k : Int) (v : PodList)
    (hnd : (pdm.map Prod.fst).Nodup) (h : (k, v) ∈ pdm) : pdmGet pdm k = some v := by
  induction pdm with
  | nil => simp at h
  | cons e rest ih =>
    obtain ⟨k2, w⟩ := e
    simp only [List.map_cons, List.nodup_cons, List.mem_map, not_exists, not_and] at hnd
    rcases List.mem_cons.1 h with h | h
    · simp only [Prod.mk.injEq] at h
      obtain ⟨rfl, rfl⟩ := h
      simp [pdmGet, List.lookup]
    · have hne : (k == k2) = false := by
        simp only [beq_eq_false_iff_ne, ne_eq]
        intro hk
        exact hnd.1 (k, v) h hk
      have := ih hnd.2 h
      simp only [pdmGet] at this
      simp [pdmGet, List.lookup, hne, this]

/-- The list found by `IsPodSpecAlreadyExist` is the first one, in iteration
order, that matches. -/
theorem IsPodSpecAlreadyExist_first (pod : Pod) (pdm : Registry) (lastID : Int)
    (hm : ∃ e ∈ pdm, e.2.matchesSpec pod) :
    ∃ before k front tl after, pdm = before ++ (k, PodList.elems front tl) :: after ∧
      (∀ e ∈ before, ¬ e.2.matchesSpec pod) ∧
      pod.Spec.Containers = front.Pod.Spec.Containers ∧
      IsPodSpecAlreadyExist pod pdm lastID = ((front.PodSpecId, (tl.length : Int) + 1), lastID) := by
  induction pdm with
  | nil => simp at hm
  | cons e rest ih =>
    obtain ⟨k, v⟩ := e
    by_cases hv : v.matchesSpec pod
    · cases v with
      | empty => exact absurd hv (by simp [PodList.matchesSpec])
      | elems p tl =>
        simp only [PodList.matchesSpec] at hv
        exact ⟨[], k, p, tl, rest, rfl, by simp, hv,
          by simp [IsPodSpecAlreadyExist, hv, PodList.Len, add_comm]⟩
    · have hm2 : ∃ e ∈ rest, e.2.matchesSpec pod := by
        obtain ⟨e, he, hme⟩ := hm
        rcases List.mem_cons.1 he with rfl | he
        · exact absurd hme hv
        · exact ⟨e, he, hme⟩
      obtain ⟨before, k2, front, tl, after, h1, h2, h3, h4⟩ := ih hm2
      refine ⟨(k, v) :: before, k2, front, tl, after, by simp [h1], ?_, h3, ?_⟩
      · intro e he
        rcases List.mem_cons.1 he with rfl | he
        · exact hv
        · exact h2 e he
      · cases v with
        | empty => simpa [IsPodSpecAlreadyExist] using h4
        | elems p tl2 =>
          simp only [PodList.matchesSpec] at hv
          simpa [IsPodSpecAlreadyExist, hv] using h4

theorem exists_first {α : Type} (p : α → Prop) (l : List α) (h : ∃ x ∈ l, p x) :
    ∃ l1 x l2, l = l1 ++ x :: l2 ∧ p x ∧ ∀ y ∈ l1, ¬ p y := by
  induction l with
  | nil => simp at h
  | cons a rest ih =>
    by_cases ha : p a
    · exact ⟨[], a, rest, rfl, ha, by simp⟩
    · have h2 : ∃ x ∈ rest, p x := by
        obtain ⟨x, hx, hpx⟩ := h
        rcases List.mem_cons.1 hx with rfl | hx
        · exact absurd hpx ha
        · exact ⟨x, hx, hpx⟩
      obtain ⟨l1, x, l2, h3, h4, h5⟩ := ih h2
      refine ⟨a :: l1, x, l2, by simp [h3], h4, ?_⟩
      intro y hy
      rcases List.mem_cons.1 hy with rfl | hy
      · exact ha
      · exact h5 y hy

theorem removeElement_none (pod : Pod) (tl : List PodDataForExistMicroService)
    (h : ¬ ∃ r ∈ tl, r.PodName = pod.ObjectMeta.Name ∨ r.PodName = pod.ObjectMeta.GenerateName) :
    removeElement pod tl = none := by
  induction tl with
  | nil => rfl
  | cons a rest ih =>
    have h1 : ¬ a.PodName = pod.ObjectMeta.Name := fun e => h ⟨a, List.mem_cons_self _ _, Or.inl e⟩
    have h2 : ¬ a.PodName = pod.ObjectMeta.GenerateName :=
      fun e => h ⟨a, List.mem_cons_self _ _, Or.inr e⟩
    have h3 := ih (fun ⟨r, hr, hrn⟩ => h ⟨r, List.mem_cons_of_mem _ hr, hrn⟩)
    simp [removeElement, h1, h2, h3]

theorem removeElement_some (pod : Pod) (tl : List PodDataForExistMicroService)
    (h : ∃ r ∈ tl, r.PodName = pod.ObjectMeta.Name ∨ r.PodName = pod.ObjectMeta.GenerateName) :
    ∃ element stay, removeElement pod tl = some (element, stay) ∧
      stay.length + 1 = tl.length ∧ element ∈ tl ∧
      (element.PodName = pod.ObjectMeta.Name ∨ element.PodName = pod.ObjectMeta.GenerateName) := by
  induction tl with
  | nil => simp at h
  | cons a rest ih =>
    by_cases h1 : a.PodName = pod.ObjectMeta.Name
    · exact ⟨a, rest, by simp [removeElement, h1], rfl, List.mem_cons_self _ _, Or.inl h1⟩
    · by_cases h2 : a.PodName = pod.ObjectMeta.GenerateName
      · exact ⟨a, rest, by simp [removeElement, h1, h2], rfl, List.mem_cons_self _ _, Or.inr h2⟩
      · have h3 : ∃ r ∈ rest, r.PodName = pod.ObjectMeta.Name ∨
            r.PodName = pod.ObjectMeta.GenerateName := by
          obtain ⟨r, hr, hrn⟩ := h
          rcases List.mem_cons.1 hr with rfl | hr
          · rcases hrn with e | e
            · exact absurd e h1
            · exact absurd e h2
          · exact ⟨r, hr, hrn⟩
        obtain ⟨element, stay, h4, h5, h6, h7⟩ := ih h3
        exact ⟨element, a :: stay, by simp [removeElement, h1, h2, h4], by simp [h5],
          List.mem_cons_of_mem _ h6, h7⟩

/-- The loop of `RemovePod` passes the lists that do not hold the pod and
stops at the first one that does. -/
theorem RemovePod_loop_first (wh : Gateway) (pod : Pod) (before l1 : Registry) (k : Int)
    (front : MicroServiceData) (tl : List PodDataForExistMicroService) (l2 : Registry)
    (element : PodDataForExistMicroService) (stay : List PodDataForExistMicroService)
    (hl1 : ∀ e ∈ l1, ¬ e.2.holdsPod pod)
    (hrem : removeElement pod tl = some (element, stay)) :
    RemovePod.loop wh pod before (l1 ++ (k, PodList.elems front tl) :: l2) =
      removeFound wh (before ++ l1) k front element stay l2 := by
  induction l1 generalizing before with
  | nil => simp [RemovePod.loop, hrem]
  | cons a rest ih =>
    obtain ⟨k2, v⟩ := a
    have hrest : ∀ e ∈ rest, ¬ e.2.holdsPod pod := fun e he => hl1 e (List.mem_cons_of_mem _ he)
    have hv : ¬ v.holdsPod pod := hl1 (k2, v) (List.mem_cons_self _ _)
    cases v with
    | empty =>
      rw [List.cons_append]
      simp only [RemovePod.loop]
      rw [ih (before ++ [(k2, PodList.empty)]) hrest]
      simp
    | elems f t =>
      simp only [PodList.holdsPod] at hv
      rw [List.cons_append]
      simp only [RemovePod.loop, removeElement_none pod t hv]
      rw [ih (before ++ [(k2, PodList.elems f t)]) hrest]
      simp

theorem RemovePod_loop_none (wh : Gateway) (pod : Pod) (before l1 : Registry)
    (hl1 : ∀ e ∈ l1, ¬ e.2.holdsPod pod) :
    RemovePod.loop wh pod before l1 =
      { ownerChecks := []
        calls := []
        result := Except.ok
          { pdm := before ++ l1, podSpecID := 0, numberOfRunningPods := 0, removed := false,
            owner := OwnerDet.zero } } := by
  induction l1 generalizing before with
  | nil => simp [RemovePod.loop]
  | cons a rest ih =>
    obtain ⟨k2, v⟩ := a
    have hrest : ∀ e ∈ rest, ¬ e.2.holdsPod pod := fun e he => hl1 e (List.mem_cons_of_mem _ he)
    have hv : ¬ v.holdsPod pod := hl1 (k2, v) (List.mem_cons_self _ _)
    cases v with
    | empty =>
      simp only [RemovePod.loop]
      rw [ih (before ++ [(k2, PodList.empty)]) hrest]
      simp
    | elems f t =>
      simp only [PodList.holdsPod] at hv
      simp only [RemovePod.loop, removeElement_none pod t hv]
      rw [ih (before ++ [(k2, PodList.elems f t)]) hrest]
      simp

theorem isMicroServiceNeedToBeRemoved_gone (gw : Gateway) (owner : OwnerDet) (ns : String)
    (h : ownerReportedGone gw owner ns) :
    (isMicroServiceNeedToBeRemoved gw owner.OwnerData owner.Kind ns).2 = Except.ok true := by
  obtain ⟨name, kind, data⟩ := owner
  cases data <;> simp only [ownerReportedGone] at h
  · obtain ⟨h1, h2⟩ := h
    simp [isMicroServiceNeedToBeRemoved, h1, h2]
  · obtain ⟨h1 | h1, h2⟩ := h <;> simp [isMicroServiceNeedToBeRemoved, h1, h2]
  · obtain ⟨h1, h2⟩ := h
    simp [isMicroServiceNeedToBeRemoved, h1, h2]
  · obtain ⟨h1, h2⟩ := h
    simp [isMicroServiceNeedToBeRemoved, h1, h2]

theorem pdmSet_split (pdm : Registry) (id : Int) :
    ∃ a b, ∀ v, pdmSet pdm id v = a ++ (id, v) :: b := by
  induction pdm with
  | nil => exact ⟨[], [], fun v => rfl⟩
  | cons e rest ih =>
    obtain ⟨k, w⟩ := e
    by_cases h : k = id
    · exact ⟨[], rest, fun v => by simp [pdmSet, h]⟩
    · obtain ⟨a, b, hab⟩ := ih
      exact ⟨(k, w) :: a, b, fun v => by simp [pdmSet, h, hab]⟩

theorem perm_replace {α : Type} (l1 l2 a b : List α) (x y : α)
    (h : (l1 ++ x :: l2).Perm (a ++ x :: b)) : (l1 ++ y :: l2).Perm (a ++ y :: b) := by
  have h1 : (x :: (l1 ++ l2)).Perm (x :: (a ++ b)) :=
    (List.perm_middle.symm.trans h).trans List.perm_middle
  have h2 : (l1 ++ l2).Perm (a ++ b) := h1.cons_inv
  exact (List.perm_middle.trans (h2.cons y)).trans List.perm_middle.symm

/-- The `DELETED` case, given the results of `RemovePod`. -/
theorem deleted_of_result (gw : Gateway) (pod : Pod) (wh : WatchHandler) (r : RemoveResult)
    (h : (RemovePod gw pod wh.pdm).result = Except.ok r) :
    PodWatch gw ⟨"DELETED", some pod⟩ wh =
      Except.ok
        { wh with
          pdm := r.pdm
          jsonReport :=
            if r.removed then
              wh.jsonReport ++
                [⟨ReportObject.pod
                    ⟨pod.ObjectMeta.Name, r.numberOfRunningPods - 1, pod.Spec.NodeName,
                      pod.Status.PodIP, pod.ObjectMeta.Namespace, ⟨r.owner.Name, r.owner.Kind⟩⟩,
                    ObjectKind.PODS, Action.DELETED⟩,
                  ⟨ReportObject.microService ⟨pod, r.owner, r.podSpecID⟩,
                    ObjectKind.MICROSERVICES, Action.DELETED⟩]
            else
              wh.jsonReport ++
                [⟨ReportObject.pod
                    ⟨pod.ObjectMeta.Name, r.numberOfRunningPods - 1, pod.Spec.NodeName,
                      pod.Status.PodIP, pod.ObjectMeta.Namespace, ⟨r.owner.Name, r.owner.Kind⟩⟩,
                    ObjectKind.PODS, Action.DELETED⟩]
          informed := wh.informed + 1 } := by
  simp only [PodWatch, PodWatch.deleted, h]
  cases r.removed <;> simp

/-- What `UpdatePod` returns on a registry whose lists all have a front. -/
theorem UpdatePod_cases (gw : Gateway) (pod : Pod) (pdm : Registry)
    (acc : Int × PodDataForExistMicroService) (hfront : ∀ e ∈ pdm, e.2 ≠ PodList.empty) :
    ∃ r, UpdatePod gw pod pdm acc = Except.ok r ∧
      (r.1 = acc.1 ∨
        ∃ k f tl, (k, PodList.elems f tl) ∈ pdm ∧ (PodList.elems f tl).refreshedBy pod ∧
          r.1 = f.PodSpecId) ∧
      ((∃ e ∈ pdm, e.2.refreshedBy pod) →
        ∃ k f tl, (k, PodList.elems f tl) ∈ pdm ∧ (PodList.elems f tl).refreshedBy pod ∧
          r.1 = f.PodSpecId) := by
  induction pdm generalizing acc with
  | nil => exact ⟨acc, rfl, Or.inl rfl, by simp⟩
  | cons e rest ih =>
    obtain ⟨k, v⟩ := e
    have hrest : ∀ e ∈ rest, e.2 ≠ PodList.empty := fun e he => hfront e (List.mem_cons_of_mem _ he)
    cases v with
    | empty => exact absurd rfl (hfront (k, PodList.empty) (List.mem_cons_self _ _))
    | elems front tl =>
      cases hfind : tl.find? (fun element => decide (element.PodName = pod.ObjectMeta.Name)) with
      | none =>
        have hno : ¬ (PodList.elems front tl).refreshedBy pod := by
          rintro ⟨⟨r, hr, hrn⟩, -⟩
          have := List.find?_eq_none.1 hfind r hr
          simp [hrn] at this
        obtain ⟨r, h1, h2, h3⟩ := ih acc hrest
        refine ⟨r, by simp [UpdatePod, hfind, h1], ?_, ?_⟩
        · rcases h2 with h2 | ⟨k2, f, t, h4, h5, h6⟩
          · exact Or.inl h2
          · exact Or.inr ⟨k2, f, t, List.mem_cons_of_mem _ h4, h5, h6⟩
        · rintro ⟨e, he, hre⟩
          rcases List.mem_cons.1 he with rfl | he
          · exact absurd hre hno
          · obtain ⟨k2, f, t, h4, h5, h6⟩ := h3 ⟨e, he, hre⟩
            exact ⟨k2, f, t, List.mem_cons_of_mem _ h4, h5, h6⟩
      | some element =>
        have hnamed : ∃ r ∈ tl, r.PodName = pod.ObjectMeta.Name :=
          ⟨element, List.mem_of_find?_eq_some hfind, by simpa using List.find?_some hfind⟩
        obtain ⟨r, h1, h2, h3⟩ := ih
          (if front.Pod = pod then front.PodSpecId else acc.1,
            ⟨pod.ObjectMeta.Name, element.NumberOfRunnigPods, pod.Spec.NodeName, pod.Status.PodIP,
              pod.ObjectMeta.Namespace,
              ⟨(GetAncestorOfPod pod gw).Name, (GetAncestorOfPod pod gw).Kind⟩⟩) hrest
        refine ⟨r, by simp [UpdatePod, hfind, h1], ?_, ?_⟩
        · rcases h2 with h2 | ⟨k2, f, t, h4, h5, h6⟩
          · by_cases hp : front.Pod = pod
            · simp only [hp, if_true] at h2
              exact Or.inr ⟨k, front, tl, List.mem_cons_self _ _, ⟨hnamed, hp⟩, h2⟩
            · simp only [hp, if_false] at h2
              exact Or.inl h2
          · exact Or.inr ⟨k2, f, t, List.mem_cons_of_mem _ h4, h5, h6⟩
        · rintro ⟨e, he, hre⟩
          rcases h2 with h2 | ⟨k2, f, t, h4, h5, h6⟩
          · rcases List.mem_cons.1 he with rfl | he
            · simp only [hre.2, if_true] at h2
              exact ⟨k, front, tl, List.mem_cons_self _ _, hre, h2⟩
            · obtain ⟨k2, f, t, h4, h5, h6⟩ := h3 ⟨e, he, hre⟩
              exact ⟨k2, f, t, List.mem_cons_of_mem _ h4, h5, h6⟩
          · exact ⟨k2, f, t, List.mem_cons_of_mem _ h4, h5, h6⟩

theorem selectItem_eq (selector : Selector) (podLabels : List (String × String))
    (items : List Controller) :
    selectItem selector podLabels items =
      if selector.Empty || !selector.Matches podLabels then none else items.head? := by
  induction items with
  | nil => simp [selectItem]
  | cons item rest ih =>
    by_cases h : (selector.Empty || !selector.Matches podLabels) = true
    · simp only [selectItem, h, if_true, ih]
    · simp [selectItem, h]

/-- The orphaned ReplicaSet branch of `GetAncestorOfPod`: when the selector of
the ReplicaSet is not empty and matches the labels of the pod, the owner is
the first Deployment of the listing, whatever the selector of that
Deployment. -/
theorem GetAncestorOfPod_orphan_replicaSet (gw : Gateway) (pod : Pod) (ref0 : OwnerReference)
    (refs : List OwnerReference) (rs item : Controller) (items : List Controller)
    (hrefs : pod.ObjectMeta.OwnerReferences = ref0 :: refs)
    (hkind : ref0.Kind = "ReplicaSet")
    (hget : gw.getReplicaSet pod.ObjectMeta.Namespace ref0.Name = Except.ok rs)
    (hrs : rs.ObjectMeta.OwnerReferences = [])
    (hempty : (LabelSelectorAsSelector rs.Selector).Empty = false)
    (hmatch : (LabelSelectorAsSelector rs.Selector).Matches pod.ObjectMeta.Labels = true)
    (hlist : gw.listDeployments pod.ObjectMeta.Namespace = item :: items) :
    (GetAncestorOfPod pod gw).Name = item.ObjectMeta.Name ∧
      (GetAncestorOfPod pod gw).Kind = item.toTypeMeta.Kind := by
  simp [GetAncestorOfPod, hrefs, hkind, hget, hrs, hlist, selectItem_eq, hempty, hmatch]

/-- The last pod of a workload is deleted and the owner check finds the owner
gone (kinds Deployment, DaemonSet, Job and Pod): the element and the front
are removed, `removed` is true, and PODS DELETED then MICROSERVICES DELETED
are reported. -/
theorem deleted_last_pod_owner_gone (gw : Gateway) (pod : Pod) (wh : WatchHandler)
    (before : Registry) (k : Int) (front : MicroServiceData) (r : PodDataForExistMicroService)
    (after : Registry)
    (hpdm : wh.pdm = before ++ (k, PodList.elems front [r]) :: after)
    (hfirst : ∀ e ∈ before, ¬ e.2.holdsPod pod)
    (hr : r.PodName = pod.ObjectMeta.Name ∨ r.PodName = pod.ObjectMeta.GenerateName)
    (hgone : ownerReportedGone gw front.Owner front.Pod.ObjectMeta.Namespace) :
    (RemovePod gw pod wh.pdm).result =
        Except.ok ⟨before ++ (k, PodList.empty) :: after, front.PodSpecId, r.NumberOfRunnigPods,
          true, front.Owner⟩ ∧
      PodWatch gw ⟨"DELETED", some pod⟩ wh =
        Except.ok
          { wh with
            pdm := before ++ (k, PodList.empty) :: after
            jsonReport := wh.jsonReport ++
              [⟨ReportObject.pod
                  ⟨pod.ObjectMeta.Name, r.NumberOfRunnigPods - 1, pod.Spec.NodeName,
                    pod.Status.PodIP, pod.ObjectMeta.Namespace,
                    ⟨front.Owner.Name, front.Owner.Kind⟩⟩,
                  ObjectKind.PODS, Action.DELETED⟩,
                ⟨ReportObject.microService ⟨pod, front.Owner, front.PodSpecId⟩,
                  ObjectKind.MICROSERVICES, Action.DELETED⟩]
            informed := wh.informed + 1 } := by
  have hrem : removeElement pod [r] = some (r, []) := by
    rcases hr with h | h
    · simp [removeElement, h]
    · by_cases h2 : r.PodName = pod.ObjectMeta.Name
      · simp [removeElement, h2]
      · simp [removeElement, h, h2]
  have hloop := RemovePod_loop_first gw pod [] before k front [r] after r [] hfirst hrem
  have hchk := isMicroServiceNeedToBeRemoved_gone gw front.Owner _ hgone
  have hres : (RemovePod gw pod wh.pdm).result =
      Except.ok ⟨before ++ (k, PodList.empty) :: after, front.PodSpecId, r.NumberOfRunnigPods,
        true, front.Owner⟩ := by
    simp [RemovePod, hpdm, hloop, removeFound, PodList.Len, hchk]
  refine ⟨hres, ?_⟩
  rw [deleted_of_result gw pod wh _ hres]
  simp

theorem pdmSet_of_get (pdm : Registry) (k : Int) (v : PodList) (h : pdmGet pdm k = some v) :
    pdmSet pdm k v = pdm := by
  induction pdm with
  | nil => simp [pdmGet, List.lookup] at h
  | cons e rest ih =>
    obtain ⟨k2, w⟩ := e
    by_cases hk : k2 = k
    · subst hk
      simp only [pdmGet, List.lookup, beq_self_eq_true, Option.some.injEq] at h
      simp [pdmSet, h]
    · have h2 : (k == k2) = false := by simpa using fun h3 => hk h3.symm
      simp only [pdmGet, List.lookup, h2] at h
      simp [pdmSet, hk, ih h]

theorem pdmSet_fresh (pdm : Registry) (k : Int) (v : PodList) (h : ∀ e ∈ pdm, e.1 ≠ k) :
    pdmSet pdm k v = pdm ++ [(k, v)] := by
  induction pdm with
  | nil => rfl
  | cons e rest ih =>
    obtain ⟨k2, w⟩ := e
    have hk : k2 ≠ k := h (k2, w) (List.mem_cons_self _ _)
    simp [pdmSet, hk, ih (fun e he => h e (List.mem_cons_of_mem _ he))]

/-- Replacing one list by the empty list or by a list with the same front
keeps the invariant. -/
theorem wellFormed_replace (a b : Registry) (k : Int) (p : MicroServiceData)
    (tl : List PodDataForExistMicroService) (v : PodList) (reports : List Report) (n : Nat)
    (lastID : Int) (reports2 : List Report) (n2 : Nat)
    (hv : v = PodList.empty ∨ ∃ tl2, v = PodList.elems p tl2)
    (h : WatchHandler.wellFormed ⟨a ++ (k, PodList.elems p tl) :: b, reports, n, lastID⟩) :
    WatchHandler.wellFormed ⟨a ++ (k, v) :: b, reports2, n2, lastID⟩ := by
  obtain ⟨h1, h2, h3, h4⟩ := h
  have hmem : ∀ k2 p2 tl2, (k2, PodList.elems p2 tl2) ∈ a ++ (k, v) :: b →
      ∃ tl3, (k2, PodList.elems p2 tl3) ∈ a ++ (k, PodList.elems p tl) :: b := by
    intro k2 p2 tl2 hm
    simp only [List.mem_append, List.mem_cons] at hm
    rcases hm with hm | hm | hm
    · exact ⟨tl2, by simp [hm]⟩
    · rcases hv with hv | ⟨tl3, hv⟩
      · rw [hv] at hm
        simp at hm
      · rw [hv] at hm
        simp only [Prod.mk.injEq, PodList.elems.injEq] at hm
        obtain ⟨rfl, rfl, -⟩ := hm
        exact ⟨tl, by simp⟩
    · exact ⟨tl2, by simp [hm]⟩
  refine ⟨by simpa using h1, ?_, ?_, ?_⟩
  · intro e he
    simp only [List.mem_append, List.mem_cons] at he
    rcases he with he | he | he
    · exact h2 e (by simp [he])
    · rw [he]
      exact h2 (k, PodList.elems p tl) (by simp)
    · exact h2 e (by simp [he])
  · intro k2 p2 tl2 hm
    obtain ⟨tl3, hm3⟩ := hmem k2 p2 tl2 hm
    exact h3 k2 p2 tl3 hm3
  · intro k1 p1 tl1 k2 p2 tl2 hm1 hm2 hc
    obtain ⟨tl3, hm3⟩ := hmem k1 p1 tl1 hm1
    obtain ⟨tl4, hm4⟩ := hmem k2 p2 tl2 hm2
    exact h4 k1 p1 tl3 k2 p2 tl4 hm3 hm4 hc

/-- In a well-formed handler the list that matches a pod is the only one. -/
theorem wellFormed_unique_match (wh : WatchHandler) (hwf : wh.wellFormed) (pod : Pod) (k : Int)
    (front : MicroServiceData) (tl : List PodDataForExistMicroService)
    (hmem : (k, PodList.elems front tl) ∈ wh.pdm)
    (hmatch : pod.Spec.Containers = front.Pod.Spec.Containers) :
    ∀ e ∈ wh.pdm, e.2.matchesSpec pod → e = (k, PodList.elems front tl) := by
  obtain ⟨h1, -, -, h4⟩ := hwf
  intro e he hm
  obtain ⟨k2, v⟩ := e
  cases v with
  | empty => exact absurd hm (by simp [PodList.matchesSpec])
  | elems p2 tl2 =>
    simp only [PodList.matchesSpec] at hm
    have hk := h4 k2 p2 tl2 k front tl he hmem (hm.symm.trans hmatch)
    subst hk
    have e1 := pdmGet_of_mem wh.pdm k2 _ h1 he
    have e2 := pdmGet_of_mem wh.pdm k2 _ h1 hmem
    rw [e1] at e2
    simp only [Option.some.injEq] at e2
    rw [e2]

theorem RemovePod_result_cases (gw : Gateway) (pod : Pod) (pdm : Registry) (r : RemoveResult)
    (h : (RemovePod gw pod pdm).result = Except.ok r) :
    r.pdm = pdm ∨ ∃ a k p tl b v, pdm = a ++ (k, PodList.elems p tl) :: b ∧
      r.pdm = a ++ (k, v) :: b ∧ (v = PodList.empty ∨ ∃ tl2, v = PodList.elems p tl2) := by
  by_cases hh : ∃ e ∈ pdm, e.2.holdsPod pod
  · obtain ⟨l1, x, l2, hsplit, hx, hl1⟩ := exists_first (fun e : Int × PodList => e.2.holdsPod pod) pdm hh
    obtain ⟨k, v⟩ := x
    cases v with
    | empty => exact absurd hx (by simp [PodList.holdsPod])
    | elems p tl =>
      obtain ⟨element, stay, hrem, -, -, -⟩ := removeElement_some pod tl hx
      have hloop := RemovePod_loop_first gw pod [] l1 k p tl l2 element stay hl1 hrem
      right
      refine ⟨l1, k, p, tl, l2, ?_⟩
      simp only [RemovePod, hsplit, hloop, removeFound, List.nil_append] at h
      split at h
      · cases hc : (isMicroServiceNeedToBeRemoved gw p.Owner.OwnerData p.Owner.Kind
            p.Pod.ObjectMeta.Namespace).2 with
        | error f => simp [hc] at h
        | ok removed =>
          simp only [hc, Except.ok.injEq] at h
          subst h
          refine ⟨_, hsplit, rfl, ?_⟩
          cases removed
          · exact Or.inr ⟨stay, by simp⟩
          · exact Or.inl (by simp)
      · simp only [Except.ok.injEq] at h
        subst h
        exact ⟨_, hsplit, rfl, Or.inr ⟨stay, rfl⟩⟩
  · left
    have hnone := RemovePod_loop_none gw pod [] pdm (fun e he hp => hh ⟨e, he, hp⟩)
    simp only [RemovePod, hnone, List.nil_append, Except.ok.injEq] at h
    subst h
    rfl

/-- No event breaks the invariant: if the handler is well formed and the
event is processed without fault, the handler afterwards is well formed. -/
theorem PodWatch_wellFormed (gw : Gateway) (event : Event) (wh wh1 : WatchHandler)
    (hwf : wh.wellFormed) (h : PodWatch gw event wh = Except.ok wh1) : wh1.wellFormed := by
  obtain ⟨pdm, reports, n, lastID⟩ := wh
  unfold PodWatch at h
  cases hobj : event.Object with
  | none =>
    simp only [hobj, Except.ok.injEq] at h
    exact h ▸ hwf
  | some pod =>
    simp only [hobj] at h
    split at h
    · -- ADDED
      rcases IsPodSpecAlreadyExist_cases pod pdm lastID with ⟨hnone, hres⟩ | ⟨k, p, tl, hmem, hmatch, hres⟩
      · have hnew := added_new gw pod ⟨pdm, reports, n, lastID⟩ hnone
        simp only [PodWatch, if_true] at hnew
        rw [hnew] at h
        simp only [Except.ok.injEq] at h
        subst h
        obtain ⟨h1, h2, h3, h4⟩ := hwf
        simp only at h1 h2 h3 h4
        have hfresh : ∀ e ∈ pdm, e.1 ≠ CreateID lastID := by
          intro e he
          have := h2 e he
          simp only [CreateID]
          omega
        simp only [WatchHandler.wellFormed, pdmSet_fresh pdm _ _ hfresh]
        refine ⟨?_, ?_, ?_, ?_⟩
        · rw [List.map_append, List.nodup_append]
          refine ⟨h1, by simp, ?_⟩
          intro x hx hx2
          simp only [List.map_cons, List.map_nil, List.mem_singleton] at hx2
          obtain ⟨e, he, rfl⟩ := List.mem_map.1 hx
          exact hfresh e he hx2
        · intro e he
          rcases List.mem_append.1 he with he | he
          · have := h2 e he
            simp only [CreateID]
            omega
          · simp only [List.mem_singleton] at he
            simp [he]
        · intro k p tl hm
          rcases List.mem_append.1 hm with hm | hm
          · exact h3 k p tl hm
          · simp only [List.mem_singleton, Prod.mk.injEq, PodList.elems.injEq] at hm
            obtain ⟨rfl, rfl, -⟩ := hm
            rfl
        · intro k1 p1 tl1 k2 p2 tl2 hm1 hm2 hc
          rcases List.mem_append.1 hm1 with hm1 | hm1 <;> rcases List.mem_append.1 hm2 with hm2 | hm2
          · exact h4 k1 p1 tl1 k2 p2 tl2 hm1 hm2 hc
          · simp only [List.mem_singleton, Prod.mk.injEq, PodList.elems.injEq] at hm2
            obtain ⟨-, rfl, -⟩ := hm2
            exact absurd (by simpa [PodList.matchesSpec] using hc.symm) (hnone _ hm1)
          · simp only [List.mem_singleton, Prod.mk.injEq, PodList.elems.injEq] at hm1
            obtain ⟨-, rfl, -⟩ := hm1
            exact absurd (by simpa [PodList.matchesSpec] using hc) (hnone _ hm2)
          · simp only [List.mem_singleton, Prod.mk.injEq] at hm1 hm2
            rw [hm1.1, hm2.1]
      · have hid : p.PodSpecId = k := hwf.2.2.1 k p tl hmem
        have hget : pdmGet pdm k = some (PodList.elems p tl) := pdmGet_of_mem pdm k _ hwf.1 hmem
        have hne : ¬ (1 + (tl.length : Int) = 0) := by omega
        simp only [PodWatch.added, hres, hid, hne, if_false, hget] at h
        generalize (if pod.ObjectMeta.Name = "" then pod.ObjectMeta.GenerateName
          else pod.ObjectMeta.Name) = podName at h
        by_cases hany : (tl.any fun element => decide (element.PodName = podName)) = true
        · simp only [hany, Bool.not_true, Bool.not_false, if_true, Except.ok.injEq] at h
          subst h
          exact hwf
        · simp only [hany, Bool.not_false, Bool.not_true, Bool.false_eq_true, if_false,
            PodWatch.addPod, hget, PodList.PushBack, Except.ok.injEq] at h
          subst h
          obtain ⟨a, b, hab⟩ := pdmSet_split pdm k
          have hpdm : pdm = a ++ (k, PodList.elems p tl) :: b := by
            rw [← hab, pdmSet_of_get pdm k _ hget]
          simp only [hab]
          refine wellFormed_replace a b k p tl _ reports n lastID _ _ (Or.inr ⟨_, rfl⟩) ?_
          rw [← hpdm]
          exact hwf
    · split at h
      · -- MODIFY
        simp only [PodWatch.modify] at h
        split at h
        · simp at h
        · split at h
          · split at h
            · simp only [Except.ok.injEq] at h
              subst h
              exact hwf
            · simp at h
          · simp only [Except.ok.injEq] at h
            subst h
            exact hwf
      · split at h
        · -- DELETED
          simp only [PodWatch.deleted] at h
          split at h
          · simp at h
          · rename_i r hr
            simp only [Except.ok.injEq] at h
            subst h
            rcases RemovePod_result_cases gw pod pdm r hr with hsame | ⟨a, k, p, tl, b, v, h1, h2, h3⟩
            · simp only [hsame]
              exact hwf
            · simp only [h2]
              refine wellFormed_replace a b k p tl v reports n lastID _ _ h3 ?_
              rw [← h1]
              exact hwf
        · simp only [Except.ok.injEq] at h
          exact h ▸ hwf

theorem emptyHandler_wellFormed : emptyHandler.wellFormed := by
  simp [WatchHandler.wellFormed, emptyHandler]

/-- In a well-formed handler every identifier of a front was handed out by
`CreateID`. -/
theorem wellFormed_idAtMost (wh : WatchHandler) (hwf : wh.wellFormed) :
    ∀ e ∈ wh.pdm, e.2.idAtMost wh.lastID := by
  obtain ⟨-, h2, h3, -⟩ := hwf
  intro e he
  obtain ⟨k, v⟩ := e
  cases v with
  | empty => trivial
  | elems p tl =>
    have := h3 k p tl he
    have := h2 _ he
    simp only [PodList.idAtMost]
    omega

/-- On a registry that holds a list without front, `UpdatePod` ends in the
fault of `v.Front().Next()`, whatever the pod. -/
theorem UpdatePod_empty_list (gw : Gateway) (pod : Pod) (pdm : Registry)
    (acc : Int × PodDataForExistMicroService) (h : ∃ e ∈ pdm, e.2 = PodList.empty) :
    UpdatePod gw pod pdm acc = Except.error Fault.nilDereference := by
  induction pdm generalizing acc with
  | nil => simp at h
  | cons e rest ih =>
    obtain ⟨k, v⟩ := e
    cases v with
    | empty => simp [UpdatePod]
    | elems front tl =>
      have hrest : ∃ e ∈ rest, e.2 = PodList.empty := by
        obtain ⟨e, he, hee⟩ := h
        rcases List.mem_cons.1 he with rfl | he
        · simp at hee
        · exact ⟨e, he, hee⟩
      cases hfind : tl.find? (fun element => decide (element.PodName = pod.ObjectMeta.Name)) with
      | none => simp [UpdatePod, hfind, ih _ hrest]
      | some element => simp [UpdatePod, hfind, ih _ hrest]

/-- A `MODIFY` event on a registry that holds a list without front ends in
the fault, whatever the pod and the cluster. -/
theorem modify_empty_list_faults (gw : Gateway) (pod : Pod) (wh : WatchHandler)
    (h : ∃ e ∈ wh.pdm, e.2 = PodList.empty) :
    PodWatch gw ⟨"MODIFY", some pod⟩ wh = Except.error Fault.nilDereference := by
  simp [PodWatch, PodWatch.modify, UpdatePod_empty_list gw pod wh.pdm _ h]

/-- A `MODIFY` event that is processed leaves the registry as it was: no
value stored in a list is replaced. -/
theorem modify_keeps_registry (gw : Gateway) (pod : Pod) (wh wh1 : WatchHandler)
    (h : PodWatch gw ⟨"MODIFY", some pod⟩ wh = Except.ok wh1) :
    wh1.pdm = wh.pdm ∧ wh1.lastID = wh.lastID := by
  simp only [PodWatch, PodWatch.modify] at h
  simp only [String.reduceEq, if_false, if_true] at h
  split at h
  · simp at h
  · split at h
    · split at h
      · simp only [Except.ok.injEq] at h
        subst h
        exact ⟨rfl, rfl⟩
      · simp at h
    · simp only [Except.ok.injEq] at h
      subst h
      exact ⟨rfl, rfl⟩

/-- On a well-formed handler whose lists all have a front, a `MODIFY` event
is processed without fault. -/
theorem modify_total_of_fronts (gw : Gateway) (pod : Pod) (wh : WatchHandler)
    (hwf : wh.wellFormed) (hfront : ∀ e ∈ wh.pdm, e.2 ≠ PodList.empty) :
    ∃ wh1, PodWatch gw ⟨"MODIFY", some pod⟩ wh = Except.ok wh1 := by
  obtain ⟨r, h1, h2, -⟩ :=
    UpdatePod_cases gw pod wh.pdm (-1, PodDataForExistMicroService.zero) hfront
  obtain ⟨id, pd⟩ := r
  by_cases hid : id = -1
  · exact ⟨_, by simp [PodWatch, PodWatch.modify, h1, hid]; rfl⟩
  · rcases h2 with h2 | ⟨k, f, tl, hmem, -, h3⟩
    · exact absurd h2 hid
    · simp only at h3
      have hk : f.PodSpecId = k := hwf.2.2.1 k f tl hmem
      have hget := pdmGet_of_mem wh.pdm k _ hwf.1 hmem
      rw [← hk, ← h3] at hget
      exact ⟨_, by simp [PodWatch, PodWatch.modify, h1, hid, hget]; rfl⟩

/-- The event loop keeps the invariant. -/
theorem run_wellFormed (events : List (Gateway × Event)) (wh wh1 : WatchHandler)
    (hwf : wh.wellFormed) (h : PodWatch.run wh events = Except.ok wh1) : wh1.wellFormed := by
  induction events generalizing wh with
  | nil =>
    simp only [PodWatch.run, Except.ok.injEq] at h
    exact h ▸ hwf
  | cons e rest ih =>
    obtain ⟨gw, event⟩ := e
    simp only [PodWatch.run] at h
    cases hstep : PodWatch gw event wh with
    | error f => simp [hstep] at h
    | ok wh2 =>
      simp only [hstep] at h
      exact ih wh2 (PodWatch_wellFormed gw event wh wh2 hwf hstep) h

/-- The owner check on an absent payload: under each case label of
`isMicroServiceNeedToBeRemoved` the type assertion fails before any `Get`. -/
theorem isMicroServiceNeedToBeRemoved_nil (gw : Gateway) (kind ns : String)
    (hkind : kind = "Deployment" ∨ kind = "DeamonSet" ∨ kind = "DaemonSet" ∨
      kind = "StatefulSets" ∨ kind = "Job" ∨ kind = "CronJob" ∨ kind = "Pod") :
    isMicroServiceNeedToBeRemoved gw OwnerData.nil kind ns = ([], Except.error Fault.typeAssertion) := by
  rcases hkind with h | h | h | h | h | h | h <;> subst h <;> rfl

/-- The last pod of a workload is deleted while the owner has no payload and
its kind is a case label of `isMicroServiceNeedToBeRemoved`: the `DELETED`
event ends in the fault of the type assertion and reports nothing. -/
theorem deleted_last_pod_nil_payload (gw : Gateway) (pod : Pod) (wh : WatchHandler)
    (before : Registry) (k : Int) (front : MicroServiceData) (r : PodDataForExistMicroService)
    (after : Registry)
    (hpdm : wh.pdm = before ++ (k, PodList.elems front [r]) :: after)
    (hfirst : ∀ e ∈ before, ¬ e.2.holdsPod pod)
    (hr : r.PodName = pod.ObjectMeta.Name ∨ r.PodName = pod.ObjectMeta.GenerateName)
    (hnil : front.Owner.OwnerData = OwnerData.nil)
    (hkind : front.Owner.Kind = "Deployment" ∨ front.Owner.Kind = "DeamonSet" ∨
      front.Owner.Kind = "DaemonSet" ∨ front.Owner.Kind = "StatefulSets" ∨
      front.Owner.Kind = "Job" ∨ front.Owner.Kind = "CronJob" ∨ front.Owner.Kind = "Pod") :
    PodWatch gw ⟨"DELETED", some pod⟩ wh = Except.error Fault.typeAssertion := by
  have hrem : removeElement pod [r] = some (r, []) := by
    rcases hr with h | h
    · simp [removeElement, h]
    · by_cases h2 : r.PodName = pod.ObjectMeta.Name
      · simp [removeElement, h2]
      · simp [removeElement, h, h2]
  have hloop := RemovePod_loop_first gw pod [] before k front [r] after r [] hfirst hrem
  have hchk := isMicroServiceNeedToBeRemoved_nil gw front.Owner.Kind front.Pod.ObjectMeta.Namespace hkind
  simp [PodWatch, PodWatch.deleted, RemovePod, hpdm, hloop, removeFound, PodList.Len, hnil, hchk]

/-- The owner check on an absent payload under the kind "StatefulSet": no case
label of `isMicroServiceNeedToBeRemoved` is that kind, so no assertion is
made and the answer is false. -/
theorem isMicroServiceNeedToBeRemoved_nil_statefulSet (gw : Gateway) (ns : String) :
    isMicroServiceNeedToBeRemoved gw OwnerData.nil "StatefulSet" ns = ([], Except.ok false) := by
  rfl

/-- The owner check on an owner with a `Get`: it issues that call and
answers whether the owner was NotFound. -/
theorem isMicroServiceNeedToBeRemoved_ownerGet (gw : Gateway) (owner : OwnerDet) (ns : String)
    (call : GatewayCall) (gone : Bool) (h : ownerGet gw owner ns = some (call, gone)) :
    isMicroServiceNeedToBeRemoved gw owner.OwnerData owner.Kind ns = ([call], Except.ok gone) := by
  obtain ⟨name, kind, data⟩ := owner
  cases data with
  | nil => simp [ownerGet] at h
  | statefulSet d => simp [ownerGet] at h
  | cronJobV1beta1 d => simp [ownerGet] at h
  | crd c => simp [ownerGet] at h
  | deployment d =>
    simp only [ownerGet] at h
    split at h
    · rename_i hk
      simp only [Option.some.injEq, Prod.mk.injEq] at h
      obtain ⟨rfl, rfl⟩ := h
      simp [isMicroServiceNeedToBeRemoved, hk]
    · simp at h
  | daemonSet d =>
    simp only [ownerGet] at h
    split at h
    · rename_i hk
      simp only [Option.some.injEq, Prod.mk.injEq] at h
      obtain ⟨rfl, rfl⟩ := h
      rcases hk with hk | hk <;> simp [isMicroServiceNeedToBeRemoved, hk]
    · simp at h
  | job d =>
    simp only [ownerGet] at h
    split at h
    · rename_i hk
      simp only [Option.some.injEq, Prod.mk.injEq] at h
      obtain ⟨rfl, rfl⟩ := h
      simp [isMicroServiceNeedToBeRemoved, hk]
    · simp at h
  | pod p =>
    simp only [ownerGet] at h
    split at h
    · rename_i hk
      simp only [Option.some.injEq, Prod.mk.injEq] at h
      obtain ⟨rfl, rfl⟩ := h
      simp [isMicroServiceNeedToBeRemoved, hk]
    · simp at h

/-- The owner check on a kind without case label: no `Get`, answer false. -/
theorem isMicroServiceNeedToBeRemoved_customKind (gw : Gateway) (data : OwnerData)
    (kind ns : String) (h : customKind kind) :
    isMicroServiceNeedToBeRemoved gw data kind ns = ([], Except.ok false) := by
  obtain ⟨h1, h2, h3, -, h5, h6, h7, h8⟩ := h
  simp [isMicroServiceNeedToBeRemoved, h1, h2, h3, h5, h6, h7, h8]

/-- What `UpdatePod` does under its guard: in a registry with distinct keys
whose lists all have a front, let the list under key `k` (not -1) have a
front with `PodSpecId = k` whose whole pod object equals the pod of the
event, let an element after the front carry the name of the pod, and let no
other list have a front with the container list of the pod.  Then `UpdatePod`
returns `k`, and the `MODIFY` event appends PODS UPDATED followed by
MICROSERVICES UPDATED with that front. -/
theorem modify_unchanged_pod_reports_both (gw : Gateway) (wh : WatchHandler) (pod : Pod) (k : Int)
    (front : MicroServiceData) (tl : List PodDataForExistMicroService)
    (hfront : ∀ e ∈ wh.pdm, e.2 ≠ PodList.empty)
    (hkeys : (wh.pdm.map Prod.fst).Nodup)
    (hmem : (k, PodList.elems front tl) ∈ wh.pdm)
    (hid : front.PodSpecId = k)
    (hk : k ≠ -1)
    (hname : ∃ r ∈ tl, r.PodName = pod.ObjectMeta.Name)
    (hpod : front.Pod = pod)
    (huniq : ∀ e ∈ wh.pdm, e.2.matchesSpec pod → e = (k, PodList.elems front tl)) :
    ∃ newPodData,
      UpdatePod gw pod wh.pdm (-1, PodDataForExistMicroService.zero) = Except.ok (k, newPodData) ∧
      PodWatch gw ⟨"MODIFY", some pod⟩ wh =
        Except.ok
          { wh with
            jsonReport := wh.jsonReport ++
              [⟨ReportObject.pod newPodData, ObjectKind.PODS, Action.UPDATED⟩,
                ⟨ReportObject.microService front, ObjectKind.MICROSERVICES, Action.UPDATED⟩]
            informed := wh.informed + 1 } := by
  obtain ⟨r, h1, -, h3⟩ := UpdatePod_cases gw pod wh.pdm (-1, PodDataForExistMicroService.zero) hfront
  obtain ⟨k2, f, t, h4, h5, h6⟩ := h3 ⟨_, hmem, ⟨hname, hpod⟩⟩
  have he := huniq _ h4 (by simp [PodList.matchesSpec, h5.2])
  simp only [Prod.mk.injEq, PodList.elems.injEq] at he
  obtain ⟨rfl, rfl, rfl⟩ := he
  obtain ⟨id, pd⟩ := r
  simp only at h6
  rw [h6, hid] at h1
  refine ⟨pd, h1, ?_⟩
  simp [PodWatch, PodWatch.modify, h1, hk, pdmGet_of_mem wh.pdm k2 _ hkeys hmem]

/-- When no list of the registry has both an element with the name of the pod
and a front whose whole pod object equals the pod of the event, `UpdatePod`
returns -1. -/
theorem UpdatePod_changed_pod (gw : Gateway) (pod : Pod) (pdm : Registry)
    (hfront : ∀ e ∈ pdm, e.2 ≠ PodList.empty) (hno : ∀ e ∈ pdm, ¬ e.2.refreshedBy pod) :
    ∃ pd, UpdatePod gw pod pdm (-1, PodDataForExistMicroService.zero) = Except.ok (-1, pd) := by
  obtain ⟨r, h1, h2, -⟩ := UpdatePod_cases gw pod pdm (-1, PodDataForExistMicroService.zero) hfront
  obtain ⟨id, pd⟩ := r
  rcases h2 with h2 | ⟨k, f, tl, hmem, href, -⟩
  · simp only at h2
    exact ⟨pd, by rw [h1, h2]⟩
  · exact absurd href (hno _ hmem)

/-! ## The statements of the specification -/

/-! ### C1: new Deployment-owned pod -/

/-- C1: an `ADDED` event for a pod whose container list matches no list of
the registry with a front, and whose first owner reference is a ReplicaSet
that has an owner reference `o`, succeeds; `IsPodSpecAlreadyExist` hands out
the new identifier `CreateID wh.lastID` with count 0; afterwards the registry
holds under that identifier a list made of a front with the pod, that
identifier, `Owner.Name = o.Name` and `Owner.Kind = o.Kind`, followed by
exactly one element; and exactly two reports are appended, in this order:
MICROSERVICES CREATED with the front, PODS CREATED with the element. -/
theorem added_replicaSet_owned_pod_creates_workload (gw : Gateway) (wh : WatchHandler) (pod : Pod)
    (ref0 : OwnerReference) (refs : List OwnerReference) (rs : Controller) (o : OwnerReference)
    (os : List OwnerReference)
    (hnew : ∀ e ∈ wh.pdm, ¬ e.2.matchesSpec pod)
    (hrefs : pod.ObjectMeta.OwnerReferences = ref0 :: refs)
    (hkind : ref0.Kind = "ReplicaSet")
    (hget : gw.getReplicaSet pod.ObjectMeta.Namespace ref0.Name = Except.ok rs)
    (hrs : rs.ObjectMeta.OwnerReferences = o :: os) :
    ∃ wh1 head np,
      PodWatch gw ⟨"ADDED", some pod⟩ wh = Except.ok wh1 ∧
      (IsPodSpecAlreadyExist pod wh.pdm wh.lastID).1 = (CreateID wh.lastID, 0) ∧
      pdmGet wh1.pdm (CreateID wh.lastID) = some (PodList.elems head [np]) ∧
      head.Pod = pod ∧ head.PodSpecId = CreateID wh.lastID ∧
      head.Owner.Name = o.Name ∧ head.Owner.Kind = o.Kind ∧
      wh1.jsonReport = wh.jsonReport ++
        [⟨ReportObject.microService head, ObjectKind.MICROSERVICES, Action.CREATED⟩,
          ⟨ReportObject.pod np, ObjectKind.PODS, Action.CREATED⟩] := by
  refine ⟨_, _, _, added_new gw pod wh hnew, ?_, pdmGet_pdmSet _ _ _, rfl, rfl, ?_, ?_, rfl⟩
  · rw [IsPodSpecAlreadyExist_none pod wh.pdm wh.lastID hnew]
  · rw [GetAncestorOfPod_replicaSet_owned gw pod ref0 refs rs o os hrefs hkind hget hrs]
  · rw [GetAncestorOfPod_replicaSet_owned gw pod ref0 refs rs o os hrefs hkind hget hrs]

/-- C1, at the scenario of the specification: pod "web-7f8-abcd", ReplicaSet
"web-7f8", Deployment "web", in a registry that tracks workload "db". -/
theorem added_replicaSet_owned_pod_creates_workload_witness :
    ∃ wh1 head np,
      PodWatch webCluster ⟨"ADDED", some webPod⟩ dbHandler = Except.ok wh1 ∧
      (IsPodSpecAlreadyExist webPod dbHandler.pdm dbHandler.lastID).1 = (2, 0) ∧
      pdmGet wh1.pdm 2 = some (PodList.elems head [np]) ∧
      head.Pod = webPod ∧ head.PodSpecId = 2 ∧
      head.Owner.Name = "web" ∧ head.Owner.Kind = "Deployment" ∧
      wh1.jsonReport = dbHandler.jsonReport ++
        [⟨ReportObject.microService head, ObjectKind.MICROSERVICES, Action.CREATED⟩,
          ⟨ReportObject.pod np, ObjectKind.PODS, Action.CREATED⟩] :=
  added_replicaSet_owned_pod_creates_workload webCluster dbHandler webPod
    ⟨"apps/v1", "ReplicaSet", "web-7f8"⟩ [] webReplicaSet ⟨"apps/v1", "Deployment", "web"⟩ []
    (by decide) rfl rfl rfl rfl

/-! ### C2: same container list, same identifier -/

/-- C2: (1) if a list of the registry has a front whose container list
equals the one of the pod, and it is the only list with such a front, then
`IsPodSpecAlreadyExist` returns the `PodSpecId` of that front, in whatever
order the registry is visited; (2) after an `ADDED` event made pod `P1` a new
workload, a lookup of any pod `P2` with the same container list, on any
iteration order of the registry the event left, returns the identifier that
was handed out for `P1`. -/
theorem IsPodSpecAlreadyExist_same_containers_same_id :
    (∀ (pod : Pod) (pdm : Registry) (lastID k : Int) (front : MicroServiceData)
        (tl : List PodDataForExistMicroService),
        (k, PodList.elems front tl) ∈ pdm →
        pod.Spec.Containers = front.Pod.Spec.Containers →
        (∀ e ∈ pdm, e.2.matchesSpec pod → e = (k, PodList.elems front tl)) →
        (IsPodSpecAlreadyExist pod pdm lastID).1.1 = front.PodSpecId) ∧
    (∀ (gw : Gateway) (wh : WatchHandler) (P1 P2 : Pod),
        (∀ e ∈ wh.pdm, ¬ e.2.matchesSpec P1) →
        P2.Spec.Containers = P1.Spec.Containers →
        ∃ wh1, PodWatch gw ⟨"ADDED", some P1⟩ wh = Except.ok wh1 ∧
          ∀ pdm2 : Registry, pdm2.Perm wh1.pdm →
            (IsPodSpecAlreadyExist P2 pdm2 wh1.lastID).1.1 =
              (IsPodSpecAlreadyExist P1 wh.pdm wh.lastID).1.1) := by
  constructor
  · intro pod pdm lastID k front tl hmem hmatch huniq
    rw [IsPodSpecAlreadyExist_unique pod pdm lastID k front tl hmem hmatch huniq]
  · intro gw wh P1 P2 hnew hsame
    refine ⟨_, added_new gw P1 wh hnew, ?_⟩
    intro pdm2 hperm
    rw [IsPodSpecAlreadyExist_none P1 wh.pdm wh.lastID hnew]
    rw [IsPodSpecAlreadyExist_unique P2 pdm2 _ (CreateID wh.lastID) _ _
      (hperm.mem_iff.2 (pdmSet_mem _ _ _)) hsame]
    intro e he hm
    rcases mem_pdmSet _ _ _ _ (hperm.mem_iff.1 he) with h | h
    · exact h
    · refine absurd ?_ (hnew e h)
      obtain ⟨k, v⟩ := e
      cases v with
      | empty => exact hm
      | elems p tl => simpa [PodList.matchesSpec, hsame] using hm

/-- C2, at the pods "web-7f8-abcd" and "web-7f8-efgh". -/
theorem IsPodSpecAlreadyExist_same_containers_same_id_witness :
    (IsPodSpecAlreadyExist webPodTwin webHandler.pdm 2).1.1 = (webHead 2).PodSpecId ∧
    ∃ wh1, PodWatch webCluster ⟨"ADDED", some webPod⟩ dbHandler = Except.ok wh1 ∧
      ∀ pdm2 : Registry, pdm2.Perm wh1.pdm →
        (IsPodSpecAlreadyExist webPodTwin pdm2 wh1.lastID).1.1 =
          (IsPodSpecAlreadyExist webPod dbHandler.pdm dbHandler.lastID).1.1 :=
  ⟨IsPodSpecAlreadyExist_same_containers_same_id.1 webPodTwin webHandler.pdm 2 2 (webHead 2)
      [webRecord] (by decide) (by decide) (by decide),
    IsPodSpecAlreadyExist_same_containers_same_id.2 webCluster dbHandler webPod webPodTwin
      (by decide) (by decide)⟩

/-! ### C3: different container lists, different identifiers -/

/-- C3: (1) if no list of the registry has a front whose container list
equals the one of the pod, `IsPodSpecAlreadyExist` returns the identifier
`CreateID lastID`, larger than the counter, with count 0; (2) when the
identifiers in the registry are ones handed out before (at most the counter),
`P1` matches no list and is made a new workload by an `ADDED` event, and the
container list of `P2` differs from the one of `P1`, then the lookup of `P2`
afterwards, on any iteration order, returns an identifier different from the
one of `P1`. -/
theorem IsPodSpecAlreadyExist_different_containers_fresh_id :
    (∀ (pod : Pod) (pdm : Registry) (lastID : Int),
        (∀ e ∈ pdm, ¬ e.2.matchesSpec pod) →
        IsPodSpecAlreadyExist pod pdm lastID = ((CreateID lastID, 0), CreateID lastID) ∧
          lastID < CreateID lastID) ∧
    (∀ (gw : Gateway) (wh : WatchHandler) (P1 P2 : Pod),
        (∀ e ∈ wh.pdm, ¬ e.2.matchesSpec P1) →
        (∀ e ∈ wh.pdm, e.2.idAtMost wh.lastID) →
        P1.Spec.Containers ≠ P2.Spec.Containers →
        ∃ wh1, PodWatch gw ⟨"ADDED", some P1⟩ wh = Except.ok wh1 ∧
          ∀ pdm2 : Registry, pdm2.Perm wh1.pdm →
            (IsPodSpecAlreadyExist P2 pdm2 wh1.lastID).1.1 ≠
              (IsPodSpecAlreadyExist P1 wh.pdm wh.lastID).1.1) := by
  constructor
  · intro pod pdm lastID hnew
    exact ⟨IsPodSpecAlreadyExist_none pod pdm lastID hnew, by simp [CreateID]⟩
  · intro gw wh P1 P2 hnew hids hdiff
    refine ⟨_, added_new gw P1 wh hnew, ?_⟩
    intro pdm2 hperm
    rw [IsPodSpecAlreadyExist_none P1 wh.pdm wh.lastID hnew]
    rcases IsPodSpecAlreadyExist_cases P2 pdm2 (CreateID wh.lastID) with ⟨_, h2⟩ | ⟨k, p, tl, h1, h2, h3⟩
    · rw [h2]; simp [CreateID]
    · rw [h3]
      rcases mem_pdmSet _ _ _ _ (hperm.mem_iff.1 h1) with h | h
      · simp only [Prod.mk.injEq, PodList.elems.injEq] at h
        obtain ⟨_, rfl, _⟩ := h
        exact absurd h2.symm hdiff
      · have := hids _ h
        simp only [PodList.idAtMost] at this
        simp only [CreateID]
        omega

/-- C3, at the pods "web-7f8-abcd" and "db-0". -/
theorem IsPodSpecAlreadyExist_different_containers_fresh_id_witness :
    (IsPodSpecAlreadyExist webPod dbHandler.pdm 1 = ((CreateID 1, 0), CreateID 1) ∧
      (1 : Int) < CreateID 1) ∧
    ∃ wh1, PodWatch webCluster ⟨"ADDED", some webPod⟩ dbHandler = Except.ok wh1 ∧
      ∀ pdm2 : Registry, pdm2.Perm wh1.pdm →
        (IsPodSpecAlreadyExist dbPod pdm2 wh1.lastID).1.1 ≠
          (IsPodSpecAlreadyExist webPod dbHandler.pdm dbHandler.lastID).1.1 :=
  ⟨IsPodSpecAlreadyExist_different_containers_fresh_id.1 webPod dbHandler.pdm 1 (by decide),
    IsPodSpecAlreadyExist_different_containers_fresh_id.2 webCluster dbHandler webPod dbPod
      (by decide) (by decide) (by decide)⟩

/-! ### C4: the count of a lookup -/

/-- C4 as stated fails: workload "web" tracks one pod, so one element follows
the front, and the lookup of a pod with the same container list returns the
count 2. -/
theorem IsPodSpecAlreadyExist_count_counterexample :
    webPodTwin.Spec.Containers = (webHead 2).Pod.Spec.Containers ∧
    (IsPodSpecAlreadyExist webPodTwin webHandler.pdm 2).1 = (2, 2) ∧
    ([webRecord].length : Int) = 1 ∧
    (IsPodSpecAlreadyExist webPodTwin webHandler.pdm 2).1.2 ≠ ([webRecord].length : Int) := by
  decide

/-- C4 (as amended): when some list of the registry matches the pod,
`IsPodSpecAlreadyExist` returns, for the first matching list in iteration
order, the `PodSpecId` of its front and the length of the list, front
included: one more than the number of elements after the front. -/
theorem IsPodSpecAlreadyExist_count_is_list_length (pod : Pod) (pdm : Registry) (lastID : Int)
    (hm : ∃ e ∈ pdm, e.2.matchesSpec pod) :
    ∃ before k front tl after, pdm = before ++ (k, PodList.elems front tl) :: after ∧
      (∀ e ∈ before, ¬ e.2.matchesSpec pod) ∧
      pod.Spec.Containers = front.Pod.Spec.Containers ∧
      (IsPodSpecAlreadyExist pod pdm lastID).1 = (front.PodSpecId, (tl.length : Int) + 1) ∧
      (IsPodSpecAlreadyExist pod pdm lastID).1.2 = (PodList.elems front tl).Len := by
  obtain ⟨before, k, front, tl, after, h1, h2, h3, h4⟩ := IsPodSpecAlreadyExist_first pod pdm lastID hm
  exact ⟨before, k, front, tl, after, h1, h2, h3, by rw [h4], by rw [h4]; simp [PodList.Len, add_comm]⟩

/-- C4 as amended, at the lookup of pod "web-7f8-efgh". -/
theorem IsPodSpecAlreadyExist_count_is_list_length_witness :
    ∃ before k front tl after,
      webHandler.pdm = before ++ (k, PodList.elems front tl) :: after ∧
      (∀ e ∈ before, ¬ e.2.matchesSpec webPodTwin) ∧
      webPodTwin.Spec.Containers = front.Pod.Spec.Containers ∧
      (IsPodSpecAlreadyExist webPodTwin webHandler.pdm 2).1 =
        (front.PodSpecId, (tl.length : Int) + 1) ∧
      (IsPodSpecAlreadyExist webPodTwin webHandler.pdm 2).1.2 = (PodList.elems front tl).Len :=
  IsPodSpecAlreadyExist_count_is_list_length webPodTwin webHandler.pdm 2 (by decide)

/-! ### C5: duplicate `ADDED` -/

/-- C5: in a registry with distinct keys, let the list under key `k` be the
only one whose front has the container list of the pod, let its front carry
`k` as `PodSpecId`, and let one of the elements after the front have as
`PodName` the name of the pod (its generate-name when the name is empty).
Then the `ADDED` event returns the handler as it was: same registry, no
report appended, `informNewDataArrive` not called. -/
theorem added_duplicate_is_ignored (gw : Gateway) (wh : WatchHandler) (pod : Pod) (k : Int)
    (front : MicroServiceData) (tl : List PodDataForExistMicroService)
    (hkeys : (wh.pdm.map Prod.fst).Nodup)
    (hmem : (k, PodList.elems front tl) ∈ wh.pdm)
    (hid : front.PodSpecId = k)
    (hmatch : pod.Spec.Containers = front.Pod.Spec.Containers)
    (huniq : ∀ e ∈ wh.pdm, e.2.matchesSpec pod → e = (k, PodList.elems front tl))
    (hname : ∃ r ∈ tl, r.PodName =
      if pod.ObjectMeta.Name = "" then pod.ObjectMeta.GenerateName else pod.ObjectMeta.Name) :
    PodWatch gw ⟨"ADDED", some pod⟩ wh = Except.ok wh := by
  have hne : ¬ (1 + (tl.length : Int) = 0) := by omega
  have hany : tl.any (fun element => decide (element.PodName =
      if pod.ObjectMeta.Name = "" then pod.ObjectMeta.GenerateName else pod.ObjectMeta.Name)) = true := by
    obtain ⟨r, hr, hrn⟩ := hname
    exact List.any_eq_true.2 ⟨r, hr, by simpa using hrn⟩
  simp only [PodWatch, PodWatch.added,
    IsPodSpecAlreadyExist_unique pod wh.pdm wh.lastID k front tl hmem hmatch huniq, hid,
    pdmGet_of_mem wh.pdm k _ hkeys hmem, hany]
  simp [hne]

/-- C5, at a second `ADDED` event for pod "web-7f8-abcd". -/
theorem added_duplicate_is_ignored_witness :
    PodWatch webCluster ⟨"ADDED", some webPod⟩ webHandler = Except.ok webHandler :=
  added_duplicate_is_ignored webCluster webHandler webPod 2 (webHead 2) [webRecord]
    (by decide) (by decide) rfl (by decide) (by decide) (by decide)

/-! ### C6: last pod deleted, owner gone -/

/-- C6, the code at two failing inputs.  Workload "db" is owned by a
StatefulSet with the payload `GetOwnerData` returns, tracks one pod, and the
StatefulSet is answered NotFound: `RemovePod` issues no `Get`, returns
`removed = false` and keeps the front, and only PODS DELETED is reported.
The workload of pod "backup-1-x" is owned by a CronJob with the payload
`GetOwnerData` returns: `RemovePod` ends in the fault of the type assertion
and nothing is reported. -/
theorem deleted_last_pod_statefulSet_cronJob_diverge :
    dbHead.Owner.Kind = "StatefulSet" ∧
    dbHead.Owner.OwnerData = GetOwnerData "db" "StatefulSet" "apps/v1" "default" dbCluster ∧
    IsNotFound (noCluster.getStatefulSet "default" "db") = true ∧
    (RemovePod noCluster dbPod dbHandler.pdm).result =
      Except.ok ⟨[(1, PodList.elems dbHead [])], 1, 1, false, dbHead.Owner⟩ ∧
    (RemovePod noCluster dbPod dbHandler.pdm).calls = [] ∧
    PodWatch noCluster ⟨"DELETED", some dbPod⟩ dbHandler =
      Except.ok ⟨[(1, PodList.elems dbHead [])],
        [⟨ReportObject.pod ⟨"db-0", 0, "node-1", "10.0.0.3", "default", ⟨"db", "StatefulSet"⟩⟩,
          ObjectKind.PODS, Action.DELETED⟩], 1, 1⟩ ∧
    (GetAncestorOfPod cronPod cronCluster).Kind = "CronJob" ∧
    (GetAncestorOfPod cronPod cronCluster).OwnerData =
      GetOwnerData "backup" "CronJob" "batch/v1beta1" "default" cronCluster ∧
    IsNotFound (noCluster.getCronJob "default" "backup") = true ∧
    (RemovePod noCluster cronPod cronHandler.pdm).result = Except.error Fault.typeAssertion ∧
    PodWatch noCluster ⟨"DELETED", some cronPod⟩ cronHandler = Except.error Fault.typeAssertion :=
  ⟨rfl, rfl, rfl, rfl, rfl, rfl, rfl, rfl, rfl, rfl, rfl⟩

/-! ### C7: `ADDED` then `DELETED` -/

/-- C7 as stated fails: from the empty registry, `ADDED` then `DELETED` of pod
"web-7f8-abcd", the Deployment "web" being answered NotFound at the second
event, leaves the registry with key 1, the identifier handed out, mapped to
an empty list. -/
theorem added_then_deleted_counterexample :
    ∃ wh1 wh2,
      PodWatch webCluster ⟨"ADDED", some webPod⟩ emptyHandler = Except.ok wh1 ∧
      PodWatch noCluster ⟨"DELETED", some webPod⟩ wh1 = Except.ok wh2 ∧
      (IsPodSpecAlreadyExist webPod emptyHandler.pdm emptyHandler.lastID).1.1 = 1 ∧
      wh2.pdm = [(1, PodList.empty)] ∧
      (1 : Int) ∈ wh2.pdm.map Prod.fst ∧
      wh2.pdm ≠ emptyHandler.pdm :=
  ⟨_, _, rfl, rfl, rfl, rfl, by decide, by decide⟩

/-- C7 (as amended): let the pod match no list of the registry and let no
list hold an element with its name or generate-name.  After `ADDED` (which
hands out identifier `i = CreateID wh.lastID`) and then `DELETED` of the same
pod, on any iteration order, with an owner of kind Deployment, DaemonSet, Job
or Pod whose payload was fetched and whose `Get` is now answered NotFound,
both events succeed and the registry is, up to order, the starting registry
with the write `pdm[i] = ` empty list: key `i` is still present and maps to a
list without front. -/
theorem added_then_deleted_leaves_empty_list (gw1 gw2 : Gateway) (wh : WatchHandler) (pod : Pod)
    (hnew : ∀ e ∈ wh.pdm, ¬ e.2.matchesSpec pod)
    (hother : ∀ e ∈ wh.pdm, ¬ e.2.holdsPod pod)
    (hgone : ownerReportedGone gw2 (GetAncestorOfPod pod gw1) pod.ObjectMeta.Namespace) :
    ∃ wh1, PodWatch gw1 ⟨"ADDED", some pod⟩ wh = Except.ok wh1 ∧
      ∀ pdm1 : Registry, pdm1.Perm wh1.pdm →
        ∃ wh2, PodWatch gw2 ⟨"DELETED", some pod⟩ { wh1 with pdm := pdm1 } = Except.ok wh2 ∧
          wh2.pdm.Perm (pdmSet wh.pdm (CreateID wh.lastID) PodList.empty) ∧
          (CreateID wh.lastID, PodList.empty) ∈ wh2.pdm := by
  refine ⟨_, added_new gw1 pod wh hnew, ?_⟩
  intro pdm1 hperm
  simp only at hperm
  generalize hnp : (⟨if pod.ObjectMeta.Name = "" then pod.ObjectMeta.GenerateName
      else pod.ObjectMeta.Name, 1, pod.Spec.NodeName, pod.Status.PodIP, pod.ObjectMeta.Namespace,
      ⟨(GetAncestorOfPod pod gw1).Name, (GetAncestorOfPod pod gw1).Kind⟩⟩ :
      PodDataForExistMicroService) = np at hperm
  generalize hnms : (⟨pod, GetAncestorOfPod pod gw1, CreateID wh.lastID⟩ : MicroServiceData) = nms
    at hperm
  have hnpname : np.PodName = pod.ObjectMeta.Name ∨ np.PodName = pod.ObjectMeta.GenerateName := by
    subst hnp
    by_cases h : pod.ObjectMeta.Name = ""
    · right; simp [h]
    · left; simp [h]
  have hholds : (PodList.elems nms [np]).holdsPod pod := ⟨np, List.mem_cons_self _ _, hnpname⟩
  obtain ⟨l1, x, l2, hsplit, hx, hl1⟩ := exists_first (fun e : Int × PodList => e.2.holdsPod pod) pdm1
    ⟨_, hperm.mem_iff.2 (pdmSet_mem _ _ _), hholds⟩
  have hxeq : x = (CreateID wh.lastID, PodList.elems nms [np]) := by
    have hxmem : x ∈ pdm1 := by rw [hsplit]; simp
    rcases mem_pdmSet _ _ _ _ (hperm.mem_iff.1 hxmem) with h | h
    · exact h
    · exact absurd hx (hother x h)
  subst hxeq
  have hrem : removeElement pod [np] = some (np, []) := by
    rcases hnpname with h | h
    · simp [removeElement, h]
    · by_cases h2 : np.PodName = pod.ObjectMeta.Name
      · simp [removeElement, h2]
      · simp [removeElement, h, h2]
  have hchk : (isMicroServiceNeedToBeRemoved gw2 nms.Owner.OwnerData nms.Owner.Kind
      nms.Pod.ObjectMeta.Namespace).2 = Except.ok true := by
    subst hnms
    exact isMicroServiceNeedToBeRemoved_gone gw2 _ _ hgone
  have hloop := RemovePod_loop_first gw2 pod [] l1 (CreateID wh.lastID) nms [np] l2 np [] hl1 hrem
  obtain ⟨a, b, hab⟩ := pdmSet_split wh.pdm (CreateID wh.lastID)
  have hres : (RemovePod gw2 pod pdm1).result =
      Except.ok ⟨l1 ++ (CreateID wh.lastID, PodList.empty) :: l2, nms.PodSpecId,
        np.NumberOfRunnigPods, true, nms.Owner⟩ := by
    simp [RemovePod, hsplit, hloop, removeFound, PodList.Len, hchk]
  refine ⟨_, deleted_of_result gw2 pod _ _ hres, ?_, ?_⟩
  · show (l1 ++ (CreateID wh.lastID, PodList.empty) :: l2).Perm _
    rw [hab]
    rw [hsplit, hab] at hperm
    exact perm_replace _ _ _ _ _ _ hperm
  · show (CreateID wh.lastID, PodList.empty) ∈ l1 ++ (CreateID wh.lastID, PodList.empty) :: l2
    simp

/-- C7 as amended, at pod "web-7f8-abcd" in a registry that tracks workload
"db". -/
theorem added_then_deleted_leaves_empty_list_witness :
    ∃ wh1, PodWatch webCluster ⟨"ADDED", some webPod⟩ dbHandler = Except.ok wh1 ∧
      ∀ pdm1 : Registry, pdm1.Perm wh1.pdm →
        ∃ wh2,
          PodWatch noCluster ⟨"DELETED", some webPod⟩ { wh1 with pdm := pdm1 } = Except.ok wh2 ∧
          wh2.pdm.Perm (pdmSet dbHandler.pdm (CreateID dbHandler.lastID) PodList.empty) ∧
          (CreateID dbHandler.lastID, PodList.empty) ∈ wh2.pdm :=
  added_then_deleted_leaves_empty_list webCluster noCluster dbHandler webPod
    (by decide) (by decide) ⟨rfl, rfl⟩

/-! ### C8: when the owner is checked -/

/-- C8 as stated fails: workload "roll", owned by a custom resource of kind
"Rollout" as `GetAncestorOfPod` resolves it, tracks exactly one pod.  The
`DELETED` event of that pod calls `isMicroServiceNeedToBeRemoved`, which has
no case for the kind: no `Get` is issued, `removed` is false and the front
stays. -/
theorem RemovePod_custom_kind_counterexample :
    (∃ wh1, PodWatch crdCluster ⟨"ADDED", some crdPod⟩ emptyHandler = Except.ok wh1 ∧
      wh1.pdm = crdHandler.pdm) ∧
    crdHead.Owner = ⟨"roll", "Rollout",
      OwnerData.crd ⟨⟨"CustomResourceDefinition", "argoproj.io/v1alpha1"⟩⟩⟩ ∧
    crdHandler.pdm = [(1, PodList.elems crdHead [crdRecord])] ∧
    [crdRecord].length = 1 ∧
    (RemovePod noCluster crdPod crdHandler.pdm).ownerChecks =
      [(crdHead.Owner.OwnerData, "Rollout", "default")] ∧
    (RemovePod noCluster crdPod crdHandler.pdm).calls = [] ∧
    (RemovePod noCluster crdPod crdHandler.pdm).result =
      Except.ok ⟨[(1, PodList.elems crdHead [])], 1, 1, false, crdHead.Owner⟩ :=
  ⟨⟨_, rfl, rfl⟩, rfl, rfl, rfl, rfl, rfl, rfl⟩

/-- C8 (as amended): let `RemovePod` remove an element from the list
`front :: tl` (the first list in iteration order that holds the pod).
(1) A `Get` is issued only if `tl` had exactly one element, and
`isMicroServiceNeedToBeRemoved` is called if and only if it had.
(2) When `tl` had another number of elements (two, for instance), no `Get` is
issued, the front stays with one element less after it, and `removed` is
false.
(3) When `tl` had exactly one element and the owner of the front is a
Deployment, DaemonSet, Job or Pod with its payload, exactly one `Get` is
issued, the one of that owner by namespace and name; `removed` is whether it
was answered NotFound, and the front is removed if and only if it was.
(4) When `tl` had exactly one element and the owner kind is none of the
built-in kinds, no `Get` is issued, `removed` is false and the front stays. -/
theorem RemovePod_owner_check_boundary (gw : Gateway) (pod : Pod) (before : Registry) (k : Int)
    (front : MicroServiceData) (tl : List PodDataForExistMicroService) (after : Registry)
    (hfirst : ∀ e ∈ before, ¬ e.2.holdsPod pod)
    (hholds : (PodList.elems front tl).holdsPod pod) :
    (((RemovePod gw pod (before ++ (k, PodList.elems front tl) :: after)).calls ≠ [] →
        tl.length = 1) ∧
      ((RemovePod gw pod (before ++ (k, PodList.elems front tl) :: after)).ownerChecks ≠ [] ↔
        tl.length = 1)) ∧
    (tl.length ≠ 1 →
      (RemovePod gw pod (before ++ (k, PodList.elems front tl) :: after)).calls = [] ∧
      ∃ element stay, removeElement pod tl = some (element, stay) ∧
        stay.length + 1 = tl.length ∧
        (RemovePod gw pod (before ++ (k, PodList.elems front tl) :: after)).result =
          Except.ok ⟨before ++ (k, PodList.elems front stay) :: after, front.PodSpecId,
            element.NumberOfRunnigPods, false, front.Owner⟩) ∧
    (tl.length = 1 → ∀ call gone,
      ownerGet gw front.Owner front.Pod.ObjectMeta.Namespace = some (call, gone) →
      (RemovePod gw pod (before ++ (k, PodList.elems front tl) :: after)).calls = [call] ∧
      ∃ element, tl = [element] ∧
        (RemovePod gw pod (before ++ (k, PodList.elems front tl) :: after)).result =
          Except.ok
            ⟨before ++ (k, if gone then PodList.empty else PodList.elems front []) :: after,
              front.PodSpecId, element.NumberOfRunnigPods, gone, front.Owner⟩) ∧
    (tl.length = 1 → customKind front.Owner.Kind →
      (RemovePod gw pod (before ++ (k, PodList.elems front tl) :: after)).calls = [] ∧
      ∃ element, tl = [element] ∧
        (RemovePod gw pod (before ++ (k, PodList.elems front tl) :: after)).result =
          Except.ok ⟨before ++ (k, PodList.elems front []) :: after, front.PodSpecId,
            element.NumberOfRunnigPods, false, front.Owner⟩) := by
  obtain ⟨element, stay, hrem, hlen, hmem, -⟩ := removeElement_some pod tl hholds
  have hloop := RemovePod_loop_first gw pod [] before k front tl after element stay hfirst hrem
  simp only [List.nil_append] at hloop
  have hmany : tl.length ≠ 1 →
      (RemovePod gw pod (before ++ (k, PodList.elems front tl) :: after)).calls = [] ∧
      (RemovePod gw pod (before ++ (k, PodList.elems front tl) :: after)).ownerChecks = [] ∧
      (RemovePod gw pod (before ++ (k, PodList.elems front tl) :: after)).result =
        Except.ok ⟨before ++ (k, PodList.elems front stay) :: after, front.PodSpecId,
          element.NumberOfRunnigPods, false, front.Owner⟩ := by
    intro h1
    have hs : ¬ (1 + (stay.length : Int) = 1) := by omega
    simp [RemovePod, hloop, removeFound, PodList.Len, hs]
  have hone : tl.length = 1 → tl = [element] ∧ stay = [] := by
    intro h1
    have hs : stay = [] := List.length_eq_zero.1 (by omega)
    refine ⟨?_, hs⟩
    match tl, h1, hmem with
    | [x], _, hm =>
      simp only [List.mem_singleton] at hm
      rw [hm]
  refine ⟨⟨?_, ?_⟩, ?_, ?_, ?_⟩
  · intro hc
    by_contra h1
    exact hc (hmany h1).1
  · constructor
    · intro hc
      by_contra h1
      exact hc (hmany h1).2.1
    · intro h1
      obtain ⟨-, hs⟩ := hone h1
      simp [RemovePod, hloop, removeFound, PodList.Len, hs]
  · intro h1
    exact ⟨(hmany h1).1, element, stay, hrem, hlen, (hmany h1).2.2⟩
  · intro h1 call gone hget
    obtain ⟨htl, hs⟩ := hone h1
    have hchk := isMicroServiceNeedToBeRemoved_ownerGet gw front.Owner _ call gone hget
    refine ⟨?_, element, htl, ?_⟩
    · simp [RemovePod, hloop, removeFound, PodList.Len, hs, hchk]
    · simp [RemovePod, hloop, removeFound, PodList.Len, hs, hchk]
  · intro h1 hkind
    obtain ⟨htl, hs⟩ := hone h1
    have hchk := isMicroServiceNeedToBeRemoved_customKind gw front.Owner.OwnerData
      front.Owner.Kind front.Pod.ObjectMeta.Namespace hkind
    refine ⟨?_, element, htl, ?_⟩
    · simp [RemovePod, hloop, removeFound, PodList.Len, hs, hchk]
    · simp [RemovePod, hloop, removeFound, PodList.Len, hs, hchk]

/-- C8 as amended, at three `DELETED` events: workload "web" tracking two
pods (no `Get`, front kept), workload "web" tracking one pod while the
Deployment "web" is answered NotFound (one `Get`, front removed), and workload
"roll" of a custom kind tracking one pod (no `Get`, front kept). -/
theorem RemovePod_owner_check_boundary_witness :
    ((RemovePod noCluster webPod twoPodHandler.pdm).calls = [] ∧
      ∃ element stay, removeElement webPod [webRecord, webTwinRecord] = some (element, stay) ∧
        stay.length + 1 = [webRecord, webTwinRecord].length ∧
        (RemovePod noCluster webPod twoPodHandler.pdm).result =
          Except.ok
            ⟨[(1, PodList.elems dbHead [dbRecord])] ++ (2, PodList.elems (webHead 2) stay) :: [],
              (webHead 2).PodSpecId, element.NumberOfRunnigPods, false, (webHead 2).Owner⟩) ∧
    ((RemovePod noCluster webPod webHandler.pdm).calls =
        [GatewayCall.getDeployment "default" "web"] ∧
      ∃ element, [webRecord] = [element] ∧
        (RemovePod noCluster webPod webHandler.pdm).result =
          Except.ok
            ⟨[(1, PodList.elems dbHead [dbRecord])] ++
                (2, if true then PodList.empty else PodList.elems (webHead 2) []) :: [],
              (webHead 2).PodSpecId, element.NumberOfRunnigPods, true, (webHead 2).Owner⟩) ∧
    ((RemovePod noCluster crdPod crdHandler.pdm).calls = [] ∧
      ∃ element, [crdRecord] = [element] ∧
        (RemovePod noCluster crdPod crdHandler.pdm).result =
          Except.ok ⟨[] ++ (1, PodList.elems crdHead []) :: [], crdHead.PodSpecId,
            element.NumberOfRunnigPods, false, crdHead.Owner⟩) :=
  ⟨(RemovePod_owner_check_boundary noCluster webPod [(1, PodList.elems dbHead [dbRecord])] 2
      (webHead 2) [webRecord, webTwinRecord] [] (by decide) (by decide)).2.1 (by decide),
    (RemovePod_owner_check_boundary noCluster webPod [(1, PodList.elems dbHead [dbRecord])] 2
      (webHead 2) [webRecord] [] (by decide) (by decide)).2.2.1 rfl
      (GatewayCall.getDeployment "default" "web") true rfl,
    (RemovePod_owner_check_boundary noCluster crdPod [] 1 crdHead [crdRecord] []
      (by decide) (by decide)).2.2.2 rfl (by decide)⟩

/-! ### C9: `MODIFY` with an unchanged container list -/

/-- C9, the code at the failing input: workload "web", stored under
identifier 2, tracks pod "web-7f8-abcd", and a `MODIFY` event carries that
pod with the container list of the front and a new pod IP and resource
version.  The guard of `UpdatePod` compares the whole pod objects and fails,
so `UpdatePod` returns -1, not 2, and the event appends PODS UPDATED only. -/
theorem modify_same_containers_skips_head :
    pdmGet webHandler.pdm 2 = some (PodList.elems (webHead 2) [webRecord]) ∧
    (∃ r ∈ [webRecord], r.PodName = webPodMoved.ObjectMeta.Name) ∧
    webPodMoved.Spec.Containers = (webHead 2).Pod.Spec.Containers ∧
    (webHead 2).Pod ≠ webPodMoved ∧
    UpdatePod webCluster webPodMoved webHandler.pdm (-1, PodDataForExistMicroService.zero) =
      Except.ok (-1, ⟨"web-7f8-abcd", 1, "node-1", "10.0.0.9", "default", ⟨"web", "Deployment"⟩⟩) ∧
    PodWatch webCluster ⟨"MODIFY", some webPodMoved⟩ webHandler =
      Except.ok
        { webHandler with
          jsonReport :=
            [⟨ReportObject.pod
                ⟨"web-7f8-abcd", 1, "node-1", "10.0.0.9", "default", ⟨"web", "Deployment"⟩⟩,
              ObjectKind.PODS, Action.UPDATED⟩]
          informed := 1 } :=
  ⟨rfl, by decide, by decide, by decide, rfl, rfl⟩

/-! ### C10: orphaned ReplicaSet -/

/-- C10, the code at the failing input: the ReplicaSet "web-7f8" of pod
"web-7f8-abcd" has no owner reference and the namespace lists the Deployment
"db", whose selector does not match the labels of the pod, before the
Deployment "web", whose selector does.  `GetAncestorOfPod` returns "db". -/
theorem GetAncestorOfPod_orphan_replicaSet_first_listed :
    webPod.ObjectMeta.OwnerReferences = [⟨"apps/v1", "ReplicaSet", "web-7f8"⟩] ∧
    (LabelSelectorAsSelector dbDeployment.Selector).Matches webPod.ObjectMeta.Labels = false ∧
    (LabelSelectorAsSelector webDeployment.Selector).Matches webPod.ObjectMeta.Labels = true ∧
    orphanCluster.listDeployments "default" = [dbDeployment, webDeployment] ∧
    (GetAncestorOfPod webPod orphanCluster).Name = "db" := by
  decide

/-! ### C11: the stored record on `MODIFY` -/

/-- C11, the code at the failing input: workload "web" tracks pod
"web-7f8-abcd" with pod IP "10.0.0.7", and a `MODIFY` event carries the pod
with pod IP "10.0.0.9".  The event is processed, the reported copy has the
new pod IP, and the element stored in the registry still has the old one:
the registry after the event is the registry before. -/
theorem modify_leaves_stored_record :
    (∃ r ∈ [webRecord], r.PodName = webPodMoved.ObjectMeta.Name) ∧
    webPodMoved.Status.PodIP = "10.0.0.9" ∧
    ∃ wh1, PodWatch webCluster ⟨"MODIFY", some webPodMoved⟩ webHandler = Except.ok wh1 ∧
      wh1.jsonReport =
        [⟨ReportObject.pod
            ⟨"web-7f8-abcd", 1, "node-1", "10.0.0.9", "default", ⟨"web", "Deployment"⟩⟩,
          ObjectKind.PODS, Action.UPDATED⟩] ∧
      wh1.pdm = webHandler.pdm ∧
      pdmGet wh1.pdm 2 = some (PodList.elems (webHead 2) [webRecord]) ∧
      webRecord.PodIP = "10.0.0.7" ∧
      webRecord.PodIP ≠ webPodMoved.Status.PodIP :=
  ⟨by decide, rfl, _, rfl, rfl, rfl, rfl, rfl, by decide⟩

/-! ### C12: last pod deleted, owner without payload -/

/-- C12, the code at the failing input: the `ADDED` event of pod
"web-7f8-abcd" arrives while the `Get` of the Deployment "web" fails, so the
front has the owner name "web", the kind "Deployment" and no payload.  The
`DELETED` event of the pod then ends in the fault of the type assertion of
`isMicroServiceNeedToBeRemoved`, and no report is appended. -/
theorem deleted_last_pod_nil_payload_faults :
    GetOwnerData "web" "Deployment" "apps/v1" "default" rsOnlyCluster = OwnerData.nil ∧
    PodWatch rsOnlyCluster ⟨"ADDED", some webPod⟩ emptyHandler = Except.ok nilPayloadHandler ∧
    pdmGet nilPayloadHandler.pdm 1 =
      some (PodList.elems ⟨webPod, ⟨"web", "Deployment", OwnerData.nil⟩, 1⟩ [webRecord]) ∧
    (isMicroServiceNeedToBeRemoved noCluster OwnerData.nil "Deployment" "default").2 =
      Except.error Fault.typeAssertion ∧
    (RemovePod noCluster webPod nilPayloadHandler.pdm).result = Except.error Fault.typeAssertion ∧
    PodWatch noCluster ⟨"DELETED", some webPod⟩ nilPayloadHandler =
      Except.error Fault.typeAssertion :=
  ⟨rfl, rfl, rfl, rfl, rfl, rfl⟩

/-! ### C13: every list has a front -/

/-- C13, the code at the failing input: from the empty registry, the events
`ADDED` and `DELETED` of pod "web-7f8-abcd", the Deployment "web" being
answered NotFound at the second, are processed and leave key 1 mapped to a
list without front; a `MODIFY` event that follows ends in the fault of
`v.Front().Next()`. -/
theorem modify_after_workload_removed_faults :
    ∃ wh2,
      PodWatch.run emptyHandler
        [(webCluster, ⟨"ADDED", some webPod⟩), (noCluster, ⟨"DELETED", some webPod⟩)] =
          Except.ok wh2 ∧
      wh2.pdm = [(1, PodList.empty)] ∧
      UpdatePod webCluster webPodTwin wh2.pdm (-1, PodDataForExistMicroService.zero) =
        Except.error Fault.nilDereference ∧
      PodWatch webCluster ⟨"MODIFY", some webPodTwin⟩ wh2 = Except.error Fault.nilDereference ∧
      PodWatch.run emptyHandler
        [(webCluster, ⟨"ADDED", some webPod⟩), (noCluster, ⟨"DELETED", some webPod⟩),
          (webCluster, ⟨"MODIFY", some webPodTwin⟩)] = Except.error Fault.nilDereference :=
  ⟨_, rfl, rfl, rfl, rfl, rfl⟩

end Kollector
